import Mathlib

/-!
Verification of the biomind-nexus workflow core against its specification.

The Python source is shallowly embedded: Python floats become exact
rationals (`ℚ`), Python strings become Lean `String`s (ASCII case
operations modelled charwise), Python lists become Lean `List`s, and the
few containers whose iteration order the source relies on (dicts with
insertion order, `defaultdict` adjacency lists) are modelled as
insertion-ordered lists.  Randomly generated identifiers (`uuid.uuid4`)
are modelled by an explicit generator parameter `ℕ → String`.
-/

/- ===================================================================
   Python-style string primitives (ASCII fragment).
   `str.lower` maps A-Z to a-z; `str.strip` removes leading and
   trailing whitespace; `in` on strings is substring containment.
   =================================================================== -/

/-- ASCII lower-casing of one character, as Python `str.lower` acts on
ASCII input. -/
def asciiLower (c : Char) : Char :=
  if 65 ≤ c.toNat ∧ c.toNat ≤ 90 then Char.ofNat (c.toNat + 32) else c

/-- ASCII upper-casing of one character, as Python `str.upper` acts on
ASCII input. -/
def asciiUpper (c : Char) : Char :=
  if 97 ≤ c.toNat ∧ c.toNat ≤ 122 then Char.ofNat (c.toNat - 32) else c

/-- Whitespace characters removed by Python `str.strip` (ASCII set). -/
def pySpace (c : Char) : Bool :=
  c.toNat = 32 ∨ c.toNat = 9 ∨ c.toNat = 10 ∨ c.toNat = 13 ∨ c.toNat = 11 ∨ c.toNat = 12

/-- Python `str.lower` on the character list. -/
def pyLowerData (l : List Char) : List Char := l.map asciiLower

/-- Python `str.strip` on the character list. -/
def pyStripData (l : List Char) : List Char :=
  ((l.dropWhile pySpace).reverse.dropWhile pySpace).reverse

/-- Python `str.lower`. -/
def pyLower (s : String) : String := ⟨pyLowerData s.data⟩

/-- Python `str.strip`. -/
def pyStrip (s : String) : String := ⟨pyStripData s.data⟩

/-- Python substring test `needle in haystack`, on character lists. -/
def containsData (haystack needle : List Char) : Bool :=
  match haystack with
  | [] => needle.isEmpty
  | _ :: tl => needle.isPrefixOf haystack || containsData tl needle

/-- Python substring test `needle in haystack`. -/
def pyContains (haystack needle : String) : Bool :=
  containsData haystack.data needle.data

/-- Python `str.upper`. -/
def pyUpper (s : String) : String := ⟨s.data.map asciiUpper⟩

/- ===================================================================
   SHA-256 (src/backend/audit/hash_chain.py uses hashlib.sha256 over
   the UTF-8 encoding of the content string, hex-encoded).
   Words are Nat reduced mod 2^32.
   =================================================================== -/

namespace Sha

/-- Reduce a word modulo 2^32. -/
def wmod (n : Nat) : Nat := n % 4294967296

/-- Rotate a 32-bit word right by `k`. -/
def rotr (x k : Nat) : Nat := Nat.lor (x >>> k) (wmod (x <<< (32 - k)))

/-- SHA-256 big sigma 0. -/
def bsig0 (x : Nat) : Nat := Nat.xor (rotr x 2) (Nat.xor (rotr x 13) (rotr x 22))

/-- SHA-256 big sigma 1. -/
def bsig1 (x : Nat) : Nat := Nat.xor (rotr x 6) (Nat.xor (rotr x 11) (rotr x 25))

/-- SHA-256 small sigma 0. -/
def ssig0 (x : Nat) : Nat := Nat.xor (rotr x 7) (Nat.xor (rotr x 18) (x >>> 3))

/-- SHA-256 small sigma 1. -/
def ssig1 (x : Nat) : Nat := Nat.xor (rotr x 17) (Nat.xor (rotr x 19) (x >>> 10))

/-- SHA-256 choice function. -/
def ch (x y z : Nat) : Nat := Nat.xor (Nat.land x y) (Nat.land (Nat.xor x 4294967295) z)

/-- SHA-256 majority function. -/
def maj (x y z : Nat) : Nat :=
  Nat.xor (Nat.land x y) (Nat.xor (Nat.land x z) (Nat.land y z))

/-- The 64 SHA-256 round constants (fractional parts of the cube roots
of the first 64 primes), written in decimal. -/
def K : List Nat :=
  [1116352408, 1899447441, 3049323471, 3921009573, 961987163,
   1508970993, 2453635748, 2870763221, 3624381080, 310598401,
   607225278, 1426881987, 1925078388, 2162078206, 2614888103,
   3248222580, 3835390401, 4022224774, 264347078, 604807628,
   770255983, 1249150122, 1555081692, 1996064986, 2554220882,
   2821834349, 2952996808, 3210313671, 3336571891, 3584528711,
   113926993, 338241895, 666307205, 773529912, 1294757372,
   1396182291, 1695183700, 1986661051, 2177026350, 2456956037,
   2730485921, 2820302411, 3259730800, 3345764771, 3516065817,
   3600352804, 4094571909, 275423344, 430227734, 506948616,
   659060556, 883997877, 958139571, 1322822218, 1537002063,
   1747873779, 1955562222, 2024104815, 2227730452, 2361852424,
   2428436474, 2756734187, 3204031479, 3329325298]

/-- The initial SHA-256 hash state, written in decimal. -/
def H0 : List Nat :=
  [1779033703, 3144134277, 1013904242, 2773480762,
   1359893119, 2600822924, 528734635, 1541459225]

/-- Split a byte list into 64-byte blocks (fueled structural recursion). -/
def chunks : Nat → List Nat → List (List Nat)
  | 0, _ => []
  | _, [] => []
  | fuel + 1, l => l.take 64 :: chunks fuel (l.drop 64)

/-- Big-endian bytes of an 8-byte length field. -/
def toBE64 (n : Nat) : List Nat :=
  [n >>> 56 % 256, n >>> 48 % 256, n >>> 40 % 256, n >>> 32 % 256,
   n >>> 24 % 256, n >>> 16 % 256, n >>> 8 % 256, n % 256]

/-- SHA-256 padding of a byte message. -/
def pad (msg : List Nat) : List Nat :=
  let l := msg.length
  let zeros := (64 + 56 - (l + 1) % 64) % 64
  msg ++ [128] ++ List.replicate zeros 0 ++ toBE64 (8 * l)

/-- Interpret four big-endian bytes as one 32-bit word. -/
def word4 : List Nat → Nat
  | b0 :: b1 :: b2 :: b3 :: _ => ((b0 * 256 + b1) * 256 + b2) * 256 + b3
  | _ => 0

/-- The sixteen 32-bit words of one 64-byte block. -/
def blockWords (block : List Nat) : List Nat :=
  (List.range 16).map (fun i => word4 (block.drop (4 * i)))

/-- Extend sixteen words to the 64-word message schedule. -/
def schedule (w16 : List Nat) : List Nat :=
  (List.range 48).foldl
    (fun w _ =>
      let n := w.length
      w ++ [wmod (ssig1 (w.getD (n - 2) 0) + w.getD (n - 7) 0 +
                  ssig0 (w.getD (n - 15) 0) + w.getD (n - 16) 0)])
    w16

/-- One compression round. -/
def round (st : List Nat) (wk : Nat × Nat) : List Nat :=
  match st with
  | [a, b, c, d, e, f, g, h] =>
    let t1 := wmod (h + bsig1 e + ch e f g + wk.2 + wk.1)
    let t2 := wmod (bsig0 a + maj a b c)
    [wmod (t1 + t2), a, b, c, wmod (d + t1), e, f, g]
  | other => other

/-- Compress one block into the running hash state. -/
def compress (h : List Nat) (block : List Nat) : List Nat :=
  let ws := schedule (blockWords block)
  let st := (ws.zip K).foldl round h
  (h.zip st).map (fun p => wmod (p.1 + p.2))

/-- SHA-256 digest of a byte message, as eight 32-bit words. -/
def digest (msg : List Nat) : List Nat :=
  let padded := pad msg
  (chunks (padded.length + 1) padded).foldl compress H0

/-- Lower-case hex digit for a value below 16. -/
def hexDigit (n : Nat) : Char :=
  if n < 10 then Char.ofNat (48 + n) else Char.ofNat (87 + n)

/-- Fixed-width big-endian hex rendering of one word. -/
def hexWord (width n : Nat) : List Char :=
  match width with
  | 0 => []
  | w + 1 => hexDigit (n >>> (4 * w) % 16) :: hexWord w (n % 2 ^ (4 * w))

/-- UTF-8 encoding of one character. -/
def charUtf8 (c : Char) : List Nat :=
  let n := c.toNat
  if n < 128 then [n]
  else if n < 2048 then [192 + n / 64, 128 + n % 64]
  else if n < 65536 then [224 + n / 4096, 128 + n / 64 % 64, 128 + n % 64]
  else [240 + n / 262144, 128 + n / 4096 % 64, 128 + n / 64 % 64, 128 + n % 64]

/-- UTF-8 bytes of a string, as Python `str.encode`. -/
def utf8Bytes (s : String) : List Nat := (s.data.map charUtf8).flatten

/-- Hex-encoded SHA-256 of a string: `hashlib.sha256(s.encode()).hexdigest()`. -/
def sha256Hex (s : String) : String :=
  ⟨(digest (utf8Bytes s)).flatMap (hexWord 8)⟩

end Sha

/- ===================================================================
   Audit hash chain (src/backend/audit/hash_chain.py).
   An audit partition is modelled as the list of its stored events in
   ascending event_id order, exactly as the verification query
   (`ORDER BY event_id ASC`) returns them.  The partition date is the
   ISO `YYYY-MM-DD` rendering used by `date.isoformat()`.
   =================================================================== -/

/-- One stored audit event row (the fields read by `verify_chain`;
`event_id` is the `str()` rendering used by `compute_event_hash`). -/
structure AuditEvent where
  event_id : String
  event_type : String
  user_id : String
  action : String
  hash : String
  prev_hash : String
deriving DecidableEq, Repr

/-- Model of `compute_event_hash`. -/
def computeEventHash (event_id event_type user_id action prev_hash : String) : String :=
  Sha.sha256Hex (event_id ++ "|" ++ event_type ++ "|" ++ user_id ++ "|" ++ action ++ "|" ++ prev_hash)

/-- Model of `compute_genesis_hash`. -/
def computeGenesisHash (partition_date : String) : String :=
  Sha.sha256Hex ("GENESIS|" ++ partition_date)

/-- The per-event loop of `verify_chain`: recompute each hash against the
running previous hash, check the stored hash and stored prev_hash, and
continue with the (just validated) stored hash. -/
def verifyChainGo (prev : String) : List AuditEvent → Bool
  | [] => true
  | e :: rest =>
    let expected := computeEventHash e.event_id e.event_type e.user_id e.action prev
    if e.hash ≠ expected then false
    else if e.prev_hash ≠ prev then false
    else verifyChainGo e.hash rest

/-- Model of `verify_chain`: empty partitions verify; otherwise the first
event's prev_hash must be the genesis hash and the chain loop must pass. -/
def verifyChain (partition_date : String) (events : List AuditEvent) : Bool :=
  match events with
  | [] => true
  | e0 :: _ =>
    let g := computeGenesisHash partition_date
    if e0.prev_hash ≠ g then false
    else verifyChainGo g events

/-- The specification's chain predicate, relative to the previous event's
recomputed hash: each event stores that hash as `prev_hash` and stores
the recomputation of its own content over it as `hash`. -/
def chainSpecFrom (prev : String) : List AuditEvent → Prop
  | [] => True
  | e :: rest =>
    e.prev_hash = prev ∧
    e.hash = computeEventHash e.event_id e.event_type e.user_id e.action prev ∧
    chainSpecFrom (computeEventHash e.event_id e.event_type e.user_id e.action prev) rest

/-- The specification's chain predicate for a whole partition: the
recomputed chain starts at the genesis hash of the partition date. -/
def chainSpec (partition_date : String) (events : List AuditEvent) : Prop :=
  chainSpecFrom (computeGenesisHash partition_date) events

/-- Overwrite the `action` field of the event at position `i`. -/
def mutateAction : List AuditEvent → Nat → String → List AuditEvent
  | [], _, _ => []
  | e :: rest, 0, a => { e with action := a } :: rest
  | e :: rest, i + 1, a => e :: mutateAction rest i a


lemma verifyChainGo_iff (events : List AuditEvent) :
    ∀ prev, verifyChainGo prev events = true ↔ chainSpecFrom prev events := by
  induction events with
  | nil => intro prev; simp [verifyChainGo, chainSpecFrom]
  | cons e rest ih =>
    intro prev
    simp only [verifyChainGo, chainSpecFrom]
    by_cases h1 : e.hash = computeEventHash e.event_id e.event_type e.user_id e.action prev
    · rw [if_neg (not_not_intro h1)]
      by_cases h2 : e.prev_hash = prev
      · rw [if_neg (not_not_intro h2), ih e.hash]
        constructor
        · intro hgo
          exact ⟨h2, h1, by rwa [← h1]⟩
        · rintro ⟨-, -, hr⟩
          rwa [h1]
      · rw [if_pos h2]
        simp [h2]
    · rw [if_pos h1]
      simp [h1]

lemma verifyChain_iff (partition_date : String) (events : List AuditEvent) :
    verifyChain partition_date events = true ↔ chainSpec partition_date events := by
  cases events with
  | nil => simp [verifyChain, chainSpec, chainSpecFrom]
  | cons e rest =>
    simp only [verifyChain, chainSpec]
    by_cases h0 : e.prev_hash = computeGenesisHash partition_date
    · rw [if_neg (not_not_intro h0), verifyChainGo_iff]
    · rw [if_pos h0]
      simp [chainSpecFrom, h0]

lemma verifyChainGo_mutate_false (events : List AuditEvent) :
    ∀ (i : Nat) (prev a' : String) (h : i < events.length),
    verifyChainGo prev events = true →
    computeEventHash (events.get ⟨i, h⟩).event_id (events.get ⟨i, h⟩).event_type
        (events.get ⟨i, h⟩).user_id a' (events.get ⟨i, h⟩).prev_hash ≠
      (events.get ⟨i, h⟩).hash →
    verifyChainGo prev (mutateAction events i a') = false := by
  induction events with
  | nil => intro i prev a' h; exact absurd h (by simp)
  | cons e rest ih =>
    intro i prev a' h hok hne
    simp only [verifyChainGo] at hok
    by_cases h1 : e.hash = computeEventHash e.event_id e.event_type e.user_id e.action prev
    · by_cases h2 : e.prev_hash = prev
      · rw [if_neg (not_not_intro h1), if_neg (not_not_intro h2)] at hok
        cases i with
        | zero =>
          simp only [List.get] at hne
          rw [h2] at hne
          simp only [mutateAction, verifyChainGo]
          rw [if_pos (fun hcontra => hne (Eq.symm hcontra))]
        | succ j =>
          simp only [List.get] at hne
          simp only [mutateAction, verifyChainGo]
          rw [if_neg (not_not_intro h1), if_neg (not_not_intro h2)]
          exact ih j e.hash a' (Nat.lt_of_succ_lt_succ h) hok hne
      · rw [if_neg (not_not_intro h1), if_pos h2] at hok
        exact absurd hok (by simp)
    · rw [if_pos h1] at hok
      exact absurd hok (by simp)

lemma verifyChain_mutate_false (d : String) (events : List AuditEvent)
    (i : Nat) (a' : String) (h : i < events.length)
    (hok : verifyChain d events = true)
    (hne : computeEventHash (events.get ⟨i, h⟩).event_id (events.get ⟨i, h⟩).event_type
        (events.get ⟨i, h⟩).user_id a' (events.get ⟨i, h⟩).prev_hash ≠
      (events.get ⟨i, h⟩).hash) :
    verifyChain d (mutateAction events i a') = false := by
  cases events with
  | nil => exact absurd h (by simp)
  | cons e rest =>
    simp only [verifyChain] at hok
    by_cases h0 : e.prev_hash = computeGenesisHash d
    · rw [if_neg (not_not_intro h0)] at hok
      have hmut := verifyChainGo_mutate_false (e :: rest) i (computeGenesisHash d) a' h hok hne
      cases i with
      | zero =>
        simp only [mutateAction] at hmut ⊢
        simp only [verifyChain]
        rw [if_neg (not_not_intro h0)]
        exact hmut
      | succ j =>
        simp only [mutateAction] at hmut ⊢
        simp only [verifyChain]
        rw [if_neg (not_not_intro h0)]
        exact hmut
    · rw [if_pos h0] at hok
      exact absurd hok (by simp)

/-- C2: `verify(partition)` returns true iff the partition's events, in
ascending event_id order, form the specified hash chain: the first event's
prev_hash is the hex SHA-256 of `GENESIS|<partition_date>`, every event's
stored hash is the recomputed hex SHA-256 of
`<event_id>|<event_type>|<user_id>|<action>|<prev>` with `prev` the
previous event's recomputed hash (genesis for the first event), and every
stored prev_hash equals that same `prev`; an empty partition verifies, and
mutating the `action` field of any stored event (so that its recomputed
hash no longer matches the stored one) makes verify return false. -/
theorem audit_verify_chain_correct :
    (∀ (d : String) (events : List AuditEvent),
        verifyChain d events = true ↔ chainSpec d events) ∧
    (∀ (d : String), verifyChain d [] = true) ∧
    (∀ (d : String) (events : List AuditEvent) (i : Nat) (a' : String)
        (h : i < events.length),
        verifyChain d events = true →
        computeEventHash (events.get ⟨i, h⟩).event_id (events.get ⟨i, h⟩).event_type
            (events.get ⟨i, h⟩).user_id a' (events.get ⟨i, h⟩).prev_hash ≠
          (events.get ⟨i, h⟩).hash →
        verifyChain d (mutateAction events i a') = false) :=
  ⟨verifyChain_iff, fun _ => rfl,
   fun d events i a' h hok hne => verifyChain_mutate_false d events i a' h hok hne⟩

/-- A concrete two-event partition for 2024-01-01 whose stored hashes are
the actual SHA-256 chain values. -/
def auditEventsC : List AuditEvent :=
  [⟨"1", "workflow", "alice", "run",
    "5e6fcd4b7d2cd61acd9b30ed1a6786c78703045904e0f14e6f638c6f72cadf5e",
    "063d57f69ecf4e76ba64a1e0b86958b1c1ace01942cb2ec0a8f651203203a9e1"⟩,
   ⟨"2", "workflow", "bob", "approve",
    "fab069de90fdaf8955a2d52e861a7199cfb35fc1b4964cba9dd8867e5e0092d4",
    "5e6fcd4b7d2cd61acd9b30ed1a6786c78703045904e0f14e6f638c6f72cadf5e"⟩]

set_option maxRecDepth 100000 in
/-- Witness for C2: the concrete partition verifies, and mutating the
second event's action makes verification fail. -/
theorem audit_verify_chain_correct_witness :
    (1 : Nat) < auditEventsC.length ∧
    verifyChain "2024-01-01" (mutateAction auditEventsC 1 "tampered") = false :=
  ⟨by decide,
   audit_verify_chain_correct.2.2 "2024-01-01" auditEventsC 1 "tampered"
     (by decide) (by decide) (by decide)⟩

/- ===================================================================
   Safety stage (src/backend/agents/safety.py).
   Flag ids (random uuid4 hex) and human-readable messages are carried
   by the source but never read back; they are omitted from the model.
   List-valued candidate fields consumed only through their length or
   emptiness (citations, mechanism_paths, evidence_items) are modelled
   by their lengths.
   =================================================================== -/

/-- Severity levels of safety flags (schemas.Severity). -/
inductive Severity where
  | info
  | warning
  | critical
deriving DecidableEq, Repr

/-- A safety flag (schemas.SafetyFlag without the uuid id and message). -/
structure SafetyFlag where
  flag_type : String
  severity : Severity
  affected_field : String
deriving DecidableEq, Repr

/-- A drug repurposing candidate (schemas.DrugCandidate; the drug and
disease entities are carried by name, list fields by length). -/
structure DrugCandidate where
  candidate_id : String
  drug : String
  target_disease : String
  hypothesis : String
  mechanism_summary : String
  overall_score : ℚ
  confidence : ℚ
  novelty_score : ℚ
  mechanism_paths : ℕ
  evidence_count : ℕ
  citations : ℕ
  rank : Option ℕ
deriving DecidableEq, Repr

/-- SafetyAgent.MIN_CONFIDENCE_THRESHOLD. -/
def MIN_CONFIDENCE_THRESHOLD : ℚ := 3/10

/-- SafetyAgent.LOW_CONFIDENCE_THRESHOLD. -/
def LOW_CONFIDENCE_THRESHOLD : ℚ := 1/2

/-- SafetyAgent.MIN_CITATIONS_PER_CANDIDATE. -/
def MIN_CITATIONS_PER_CANDIDATE : ℕ := 1

/-- Model of `SafetyAgent._validate_candidate`: the per-candidate flags in
emission order. -/
def validateCandidate (c : DrugCandidate) : List SafetyFlag :=
  (if c.confidence < MIN_CONFIDENCE_THRESHOLD then
     [⟨"confidence_too_low", Severity.critical, "confidence"⟩]
   else if c.confidence < LOW_CONFIDENCE_THRESHOLD then
     [⟨"low_confidence", Severity.warning, "confidence"⟩]
   else []) ++
  (if c.citations < MIN_CITATIONS_PER_CANDIDATE then
     [⟨"insufficient_citations", Severity.warning, "citations"⟩]
   else []) ++
  (if c.mechanism_paths = 0 then
     [⟨"no_mechanism", Severity.warning, "mechanism_paths"⟩]
   else []) ++
  (if pyStrip c.hypothesis = "" then
     [⟨"missing_hypothesis", Severity.critical, "hypothesis"⟩]
   else []) ++
  (if pyStrip c.mechanism_summary = "" then
     [⟨"missing_mechanism_summary", Severity.warning, "mechanism_summary"⟩]
   else [])

/-- The state slots read by the safety stage; entity and evidence lists
are consumed only through emptiness and are modelled by their lengths. -/
structure SafetyState where
  ranked_candidates : List DrugCandidate
  extracted_entities : ℕ
  literature_evidence : ℕ
deriving DecidableEq, Repr

/-- Model of `SafetyAgent._validate_global`. -/
def validateGlobal (st : SafetyState) (approved : List DrugCandidate) : List SafetyFlag :=
  (if approved.isEmpty then
     [⟨"no_candidates", Severity.warning, "ranked_candidates"⟩]
   else []) ++
  (if st.extracted_entities = 0 then
     [⟨"no_entities_extracted", Severity.info, "extracted_entities"⟩]
   else []) ++
  (if st.literature_evidence = 0 then
     [⟨"no_literature_evidence", Severity.info, "literature_evidence"⟩]
   else [])

/-- Result of safety validation (schemas.SafetyCheck). -/
structure SafetyCheck where
  passed : Bool
  requires_human_review : Bool
  flags : List SafetyFlag
  min_confidence : ℚ
  total_citations : ℕ
  schema_valid : Bool
  content_safe : Bool
  citations_verified : Bool
deriving DecidableEq, Repr

/-- The three state slots written by `SafetyAgent.process`. -/
structure SafetyOutcome where
  safety_result : SafetyCheck
  final_candidates : List DrugCandidate
  workflow_approved : Bool
deriving DecidableEq, Repr

/-- True when a candidate's own validation produced no critical flag
(the loop's per-candidate approval test). -/
def candidateApproved (c : DrugCandidate) : Bool :=
  ((validateCandidate c).filter (fun f => decide (f.severity = Severity.critical))).isEmpty

/-- Model of `SafetyAgent.process`: validate each ranked candidate in
order, collect global flags over the approved sublist, and approve the
workflow exactly when no critical flag was emitted. -/
def processSafety (st : SafetyState) : SafetyOutcome :=
  let all_cand_flags := (st.ranked_candidates.map validateCandidate).flatten
  let approved := st.ranked_candidates.filter candidateApproved
  let all_flags := all_cand_flags ++ validateGlobal st approved
  let critical_count := all_flags.countP (fun f => decide (f.severity = Severity.critical))
  let warning_count := all_flags.countP (fun f => decide (f.severity = Severity.warning))
  let passed := critical_count == 0
  { safety_result :=
      { passed := passed
        requires_human_review := (warning_count != 0) || approved.isEmpty
        flags := all_flags
        min_confidence := ((approved.map (fun c => c.confidence)).min?).getD 0
        total_citations := (approved.map (fun c => c.citations)).sum
        schema_valid := true
        content_safe := critical_count == 0
        citations_verified := true }
    final_candidates := if passed then approved else []
    workflow_approved := passed }

/-- C1 counterexample: a state with an empty ranked-candidate list (and
nonempty entities and evidence) is approved even though no candidate
passed candidate-level validation, contradicting the claim that a run
with an empty candidate list is never approved. -/
theorem safety_empty_candidates_still_approved :
    (processSafety ⟨[], 1, 1⟩).workflow_approved = true ∧
    (processSafety ⟨[], 1, 1⟩).final_candidates = [] := by
  decide

/-- C1 (amended): the safety stage approves the workflow iff the
resulting verdict contains no critical flag; when the candidate list is
nonempty, approval still implies at least one candidate passed
candidate-level validation, but a run with an empty candidate list is
approved (with empty final candidates) since it only draws a warning. -/
theorem safety_approved_iff_no_critical (st : SafetyState) :
    ((processSafety st).workflow_approved = true ↔
      ∀ f ∈ (processSafety st).safety_result.flags, f.severity ≠ Severity.critical) ∧
    (st.ranked_candidates ≠ [] → (processSafety st).workflow_approved = true →
      (processSafety st).final_candidates ≠ []) := by
  constructor
  · simp only [processSafety, beq_iff_eq, List.countP_eq_zero]
    simp
  · intro hne happ
    have hall : ∀ f ∈ (processSafety st).safety_result.flags,
        f.severity ≠ Severity.critical := by
      revert happ
      simp only [processSafety, beq_iff_eq, List.countP_eq_zero]
      simp
    have happrove : ∀ c ∈ st.ranked_candidates, candidateApproved c = true := by
      intro c hc
      unfold candidateApproved
      rw [List.isEmpty_iff, List.filter_eq_nil_iff]
      intro f hf
      simp only [decide_eq_true_eq]
      refine hall f ?_
      simp only [processSafety, List.mem_append, List.mem_flatten]
      exact Or.inl ⟨validateCandidate c, List.mem_map_of_mem _ hc, hf⟩
    have hfilter : st.ranked_candidates.filter candidateApproved = st.ranked_candidates :=
      List.filter_eq_self.mpr happrove
    simp only [processSafety]
    revert happ
    simp only [processSafety]
    intro happ
    rw [if_pos happ, hfilter]
    exact hne

/-- Witness for C1 (amended): a state with one fully valid candidate is
approved with a nonempty final candidate list. -/
theorem safety_approved_iff_no_critical_witness :
    (processSafety ⟨[⟨"c1", "Drug", "Disease", "Valid hypothesis", "Valid mechanism",
        4/5, 7/10, 1/2, 1, 1, 1, none⟩], 2, 1⟩).final_candidates ≠ [] :=
  (safety_approved_iff_no_critical _).2 (by decide)
    ((safety_approved_iff_no_critical _).1.mpr (by with_unfolding_all decide))

/- ===================================================================
   Pathway simulator (src/backend/agents/pathway_reasoning.py with its
   schemas from src/backend/agents/schemas.py).
   Random uuid identifiers (path ids, simulation id) are modelled as
   an explicit generator parameter; the numeric text inside rejection
   reason messages is not rendered (the claims never read it).
   =================================================================== -/

/-- Biomedical entity kinds (schemas.EntityType). -/
inductive EntityType where
  | drug
  | disease
  | gene
  | protein
  | pathway
  | phenotype
deriving DecidableEq, Repr

/-- A biomedical entity; only `name` and `entity_type` are read by the
pathway module. -/
structure BiomedicalEntity where
  name : String
  entity_type : EntityType
deriving DecidableEq, Repr

/-- Biological relation types (schemas.RelationType). -/
inductive RelationType where
  | inhibits
  | activates
  | binds
  | modulates
  | upregulates
  | downregulates
  | phosphorylates
  | catalyzes
  | transports
  | regulates
  | associates_with
  | treats
  | causes
  | prevents
  | unknown
deriving DecidableEq, Repr

/-- The string value of a relation type (the str-enum payload). -/
def RelationType.value : RelationType → String
  | .inhibits => "inhibits"
  | .activates => "activates"
  | .binds => "binds"
  | .modulates => "modulates"
  | .upregulates => "upregulates"
  | .downregulates => "downregulates"
  | .phosphorylates => "phosphorylates"
  | .catalyzes => "catalyzes"
  | .transports => "transports"
  | .regulates => "regulates"
  | .associates_with => "associates_with"
  | .treats => "treats"
  | .causes => "causes"
  | .prevents => "prevents"
  | .unknown => "unknown"

/-- An evidence item (schemas.EvidenceItem); `citation` carries the
citation's source_id when present. -/
structure EvidenceItem where
  description : String
  confidence : ℚ
  citation : Option String
  entities_mentioned : List BiomedicalEntity
deriving DecidableEq, Repr

/-- A directed edge of the in-memory biological graph
(schemas.BiologicalEdge). -/
structure BiologicalEdge where
  source_entity : String
  target_entity : String
  relation : RelationType
  confidence : ℚ
  evidence_count : ℕ
  pmid_support : List String
deriving DecidableEq, Repr

/-- The Python `__eq__`/`__hash__` identity of an edge: the triple
(source_entity, target_entity, relation), ignoring confidence and
evidence fields. -/
def BiologicalEdge.identEq (a b : BiologicalEdge) : Bool :=
  decide (a.source_entity = b.source_entity ∧ a.target_entity = b.target_entity ∧
    a.relation = b.relation)

/-- Name normalization used by BiologicalGraph: `name.lower().strip()`. -/
def gnormalize (name : String) : String := pyStrip (pyLower name)

/-- The in-memory biological graph.  The entity registry and the edge
set are kept in insertion order; the per-source adjacency lists of the
source's `defaultdict` are recovered by filtering the insertion-ordered
edge list, which preserves the original per-key append order. -/
structure BiologicalGraph where
  entities : List (String × BiomedicalEntity)
  edgesList : List BiologicalEdge
deriving DecidableEq, Repr

/-- Model of `BiologicalGraph.add_entity`. -/
def addEntity (g : BiologicalGraph) (e : BiomedicalEntity) : BiologicalGraph :=
  if g.entities.any (fun p => p.1 == gnormalize e.name) then g
  else { g with entities := g.entities ++ [(gnormalize e.name, e)] }

/-- Model of `BiologicalGraph.add_edge`: a no-op when an edge with the
same identity triple is already present. -/
def addEdge (g : BiologicalGraph) (e : BiologicalEdge) : BiologicalGraph :=
  if g.edgesList.any (fun e0 => BiologicalEdge.identEq e0 e) then g
  else { g with edgesList := g.edgesList ++ [e] }

/-- Model of `BiologicalGraph.get_neighbors`: the outgoing
(normalized-target, edge) pairs in insertion order. -/
def getNeighbors (g : BiologicalGraph) (name : String) : List (String × BiologicalEdge) :=
  (g.edgesList.filter (fun e => gnormalize e.source_entity == gnormalize name)).map
    (fun e => (gnormalize e.target_entity, e))

/-- RELATION_CONFIDENCE_MODIFIERS (every relation is present in the
source table, so the `.get` default 0.5 is never taken). -/
def relationModifier : RelationType → ℚ
  | .inhibits => 1
  | .activates => 1
  | .binds => 0.95
  | .modulates => 0.85
  | .regulates => 0.80
  | .upregulates => 0.90
  | .downregulates => 0.90
  | .phosphorylates => 0.85
  | .treats => 1
  | .causes => 0.90
  | .prevents => 0.95
  | .associates_with => 0.60
  | .catalyzes => 0.80
  | .transports => 0.70
  | .unknown => 0.40

/-- RELATION_KEYWORDS in source dict-insertion order. -/
def RELATION_KEYWORDS : List (RelationType × List String) :=
  [(.inhibits, ["inhibit", "block", "suppress", "reduce", "decrease", "antagonist"]),
   (.activates, ["activate", "stimulate", "enhance", "increase", "agonist", "induce"]),
   (.binds, ["bind", "interact", "dock", "attach", "affinity"]),
   (.modulates, ["modulate", "affect", "influence", "regulate"]),
   (.upregulates, ["upregulate", "overexpress", "elevate"]),
   (.downregulates, ["downregulate", "underexpress", "diminish"]),
   (.treats, ["treat", "therapeutic", "efficacy", "beneficial"]),
   (.causes, ["cause", "induce", "trigger", "lead to"]),
   (.prevents, ["prevent", "protect", "avert"])]

/-- Model of `_detect_relation`: first table entry one of whose keywords
occurs in the lowered text wins; default MODULATES. -/
def detectRelation (text : String) : RelationType :=
  let tl := pyLower text
  match RELATION_KEYWORDS.find? (fun p => p.2.any (fun k => pyContains tl k)) with
  | some p => p.1
  | none => RelationType.modulates

/-- All ordered pairs (mentioned[i], mentioned[j]) with i < j, as the
source's nested enumerate loop produces them. -/
def orderedPairs : List BiomedicalEntity → List (BiomedicalEntity × BiomedicalEntity)
  | [] => []
  | x :: xs => xs.map (fun y => (x, y)) ++ orderedPairs xs

/-- Direction assignment of `_infer_edges_from_evidence`: skip same-kind
pairs, put a drug first, put a disease last. -/
def directPair (s t : BiomedicalEntity) :
    Option (BiomedicalEntity × BiomedicalEntity) :=
  if s.entity_type = t.entity_type then none
  else if s.entity_type = EntityType.drug then some (s, t)
  else if t.entity_type = EntityType.drug then some (t, s)
  else if s.entity_type = EntityType.disease then some (t, s)
  else some (s, t)

/-- Model of `_infer_edges_from_evidence`. -/
def inferEdgesFromEvidence (ev : EvidenceItem) : List BiologicalEdge :=
  let pmids := match ev.citation with
    | some cid => if cid = "" then [] else [cid]
    | none => []
  let relation := detectRelation (pyLower ev.description)
  (orderedPairs ev.entities_mentioned).filterMap (fun p =>
    (directPair p.1 p.2).map (fun q =>
      { source_entity := q.1.name
        target_entity := q.2.name
        relation := relation
        confidence := ev.confidence * relationModifier relation
        evidence_count := 1
        pmid_support := pmids }))

/-- Model of `_add_canonical_edges`: drug→gene MODULATES 0.6,
gene→disease ASSOCIATES_WITH 0.5, drug→disease TREATS 0.4, in that
order. -/
def addCanonicalEdges (g : BiologicalGraph) (entities : List BiomedicalEntity) :
    BiologicalGraph :=
  let drugs := entities.filter (fun e => e.entity_type == EntityType.drug)
  let genes := entities.filter (fun e =>
    e.entity_type == EntityType.gene || e.entity_type == EntityType.protein)
  let diseases := entities.filter (fun e => e.entity_type == EntityType.disease)
  let g1 := (drugs.flatMap (fun d => genes.map (fun gn =>
    ({ source_entity := d.name, target_entity := gn.name,
       relation := RelationType.modulates, confidence := 0.6,
       evidence_count := 0, pmid_support := [] } : BiologicalEdge)))).foldl addEdge g
  let g2 := (genes.flatMap (fun gn => diseases.map (fun ds =>
    ({ source_entity := gn.name, target_entity := ds.name,
       relation := RelationType.associates_with, confidence := 0.5,
       evidence_count := 0, pmid_support := [] } : BiologicalEdge)))).foldl addEdge g1
  (drugs.flatMap (fun d => diseases.map (fun ds =>
    ({ source_entity := d.name, target_entity := ds.name,
       relation := RelationType.treats, confidence := 0.4,
       evidence_count := 0, pmid_support := [] } : BiologicalEdge)))).foldl addEdge g2

/-- Model of `_build_graph`: entities as nodes, evidence-derived edges,
then canonical edges (the `citations` argument is unused in source). -/
def buildGraph (entities : List BiomedicalEntity) (evidence : List EvidenceItem) :
    BiologicalGraph :=
  let g0 := entities.foldl addEntity ⟨[], []⟩
  let g1 := evidence.foldl (fun g ev => (inferEdgesFromEvidence ev).foldl addEdge g) g0
  addCanonicalEdges g1 entities

/-- MAX_PATH_DEPTH. -/
def MAX_PATH_DEPTH : ℕ := 5

/-- MIN_PATH_CONFIDENCE. -/
def MIN_PATH_CONFIDENCE : ℚ := 0.15

/-- PATH_LENGTH_PENALTY. -/
def PATH_LENGTH_PENALTY : ℚ := 0.85

/-- A valid path (schemas.PathwayPath). -/
structure PathwayPath where
  path_id : String
  edges : List BiologicalEdge
  biological_rationale : String
  path_confidence : ℚ
  path_length : ℕ
  evidence_support_score : ℚ
deriving DecidableEq, Repr

/-- A rejected path (schemas.RejectedPath; the source field
`partial_confidence` is rendered here as `failing_conf`, and the numeric
text interpolated into the reason message is not modelled). -/
structure RejectedPath where
  path_description : String
  rejection_reason : String
  failing_conf : ℚ
deriving DecidableEq, Repr

/-- Lowered names of all path endpoints (the set `path_entities`,
as a first-occurrence deduplicated list). -/
def pathEntityNames (edges : List BiologicalEdge) : List String :=
  (edges.flatMap (fun e => [pyLower e.source_entity, pyLower e.target_entity])).dedup

/-- Model of `_calculate_evidence_support`. -/
def calculateEvidenceSupport (edges : List BiologicalEdge)
    (evidence : List EvidenceItem) : ℚ :=
  if evidence.isEmpty then 0
  else
    let path_entities := pathEntityNames edges
    let contrib := evidence.filterMap (fun ev =>
      let evNames := (ev.entities_mentioned.map (fun e => pyLower e.name)).dedup
      let overlap := path_entities.filter (fun n => evNames.contains n)
      if overlap.isEmpty then none
      else some (ev.confidence * ((overlap.length : ℚ) / (path_entities.length : ℚ))))
    if contrib.length = 0 then 0
    else min 1 (contrib.sum / (contrib.length : ℚ))

/-- Model of the path-description string built by `_evaluate_path`. -/
def pathDescription : List BiologicalEdge → String
  | [] => ""
  | e0 :: rest => (e0 :: rest).foldl
      (fun acc e => acc ++ " --[" ++ e.relation.value ++ "]--> " ++ e.target_entity)
      e0.source_entity

/-- The verb table of `_generate_rationale` (missing relations fall back
to "affects"). -/
def relationVerb : RelationType → String
  | .inhibits => "inhibits"
  | .activates => "activates"
  | .binds => "binds to"
  | .modulates => "modulates"
  | .treats => "treats"
  | .causes => "causes"
  | .prevents => "prevents"
  | .regulates => "regulates"
  | .associates_with => "associates with"
  | _ => "affects"

/-- Model of `_generate_rationale`. -/
def generateRationale : List BiologicalEdge → String
  | [] => "No pathway to explain."
  | e0 :: rest =>
    let first := e0.source_entity ++ " " ++ relationVerb e0.relation ++ " " ++ e0.target_entity
    let restParts := rest.map (fun e => "which " ++ relationVerb e.relation ++ " " ++ e.target_entity)
    String.intercalate ", " (first :: restParts) ++ "."

/-- Result of `_evaluate_path` (the source's (bool, object) pair). -/
inductive PathEval where
  | valid (p : PathwayPath)
  | rejected (r : RejectedPath)
deriving DecidableEq, Repr

/-- Model of `_evaluate_path`; `pathId` stands for the fresh
`uuid.uuid4` hex drawn when a PathwayPath is constructed. -/
def evaluatePath (pathId : String) (edges : List BiologicalEdge)
    (evidence : List EvidenceItem) : PathEval :=
  match edges with
  | [] => PathEval.rejected ⟨"Empty path", "No edges in path", 0⟩
  | _ =>
    let base_confidence := edges.foldl (fun b e => b * e.confidence) 1
    let path_length := edges.length
    let length_penalty := PATH_LENGTH_PENALTY ^ (path_length - 1)
    let evidence_support := calculateEvidenceSupport edges evidence
    let path_confidence := min 1 (base_confidence * length_penalty * (1 + evidence_support * 0.3))
    if path_confidence < MIN_PATH_CONFIDENCE then
      PathEval.rejected ⟨pathDescription edges, "Confidence below threshold", path_confidence⟩
    else
      PathEval.valid ⟨pathId, edges, generateRationale edges, path_confidence,
        path_length, evidence_support⟩

/-- Simulation output (schemas.SimulationResult). -/
structure SimulationResult where
  simulation_id : String
  drug : String
  disease : String
  valid_paths : List PathwayPath
  rejected_paths : List RejectedPath
  overall_plausibility : ℚ
  entities_traversed : ℕ
  edges_evaluated : ℕ
  max_path_depth : ℕ
deriving DecidableEq, Repr

/-- The comparator of `sorted(valid_paths, key=conf, reverse=True)`:
stable descending by path confidence. -/
def confDescLE (a b : PathwayPath) : Bool :=
  decide (b.path_confidence ≤ a.path_confidence)

/-- Model of the aggregation step of `_simulate_pathways`: mean of the
confidences of the first three paths after the stable descending sort,
or 0 when no path is accepted. -/
def overallPlausibility (valid_paths : List PathwayPath) : ℚ :=
  if valid_paths.isEmpty then 0
  else
    let top := (valid_paths.mergeSort confDescLE).take 3
    (top.map (fun p => p.path_confidence)).sum / (top.length : ℚ)

/-- The mutable loop state of the BFS in `_simulate_pathways`:
accepted and rejected paths, the edges_evaluated counter, the
`entities_traversed` set (insertion-ordered), and the number of path
ids drawn so far. -/
structure BfsAcc where
  valid : List PathwayPath
  rejected : List RejectedPath
  edges_evaluated : ℕ
  traversed : List String
  counter : ℕ
deriving DecidableEq, Repr

/-- Insert into the traversed set (a no-op on repeats). -/
def insertTraversed (l : List String) (x : String) : List String :=
  if l.contains x then l else l ++ [x]

/-- The BFS while-loop of `_simulate_pathways`, made structural with a
fuel parameter: the Python loop corresponds to any fuel at least the
number of iterations, which is finite since every queue entry carries a
strictly growing visited set over a fixed node universe. -/
def bfsLoop (gen : ℕ → String) (evidence : List EvidenceItem) (g : BiologicalGraph)
    (disease_name : String) :
    ℕ → List (String × List BiologicalEdge × List String) → BfsAcc → BfsAcc
  | 0, _, acc => acc
  | _, [], acc => acc
  | fuel + 1, (current, path_edges, visited) :: queue, acc =>
    let acc := { acc with traversed := insertTraversed acc.traversed current }
    if current == disease_name || pyContains current disease_name ||
        pyContains disease_name current then
      if path_edges.isEmpty then
        bfsLoop gen evidence g disease_name fuel queue acc
      else
        match evaluatePath (gen acc.counter) path_edges evidence with
        | PathEval.valid p =>
          bfsLoop gen evidence g disease_name fuel queue
            { acc with valid := acc.valid ++ [p], counter := acc.counter + 1 }
        | PathEval.rejected r =>
          bfsLoop gen evidence g disease_name fuel queue
            { acc with rejected := acc.rejected ++ [r] }
    else if MAX_PATH_DEPTH ≤ path_edges.length then
      bfsLoop gen evidence g disease_name fuel queue acc
    else
      let neighbors := getNeighbors g current
      let acc := { acc with edges_evaluated := acc.edges_evaluated + neighbors.length }
      let newEntries := (neighbors.filter (fun p => ¬ visited.contains p.1)).map
        (fun p => (p.1, path_edges ++ [p.2], visited ++ [p.1]))
      bfsLoop gen evidence g disease_name fuel (queue ++ newEntries) acc

/-- Model of `_simulate_pathways`; `gen` supplies the uuid hex draws for
accepted paths and `simId` the simulation's own uuid. -/
def simulatePathways (gen : ℕ → String) (simId : String) (fuel : ℕ)
    (g : BiologicalGraph) (drug disease : BiomedicalEntity)
    (evidence : List EvidenceItem) : SimulationResult :=
  let drug_name := pyLower drug.name
  let disease_name := pyLower disease.name
  let acc := bfsLoop gen evidence g disease_name fuel
    [(drug_name, [], [drug_name])] ⟨[], [], 0, [], 0⟩
  { simulation_id := simId
    drug := drug.name
    disease := disease.name
    valid_paths := acc.valid
    rejected_paths := acc.rejected
    overall_plausibility := overallPlausibility acc.valid
    entities_traversed := acc.traversed.length
    edges_evaluated := acc.edges_evaluated
    max_path_depth := ((acc.valid.map (fun p => p.path_length)).max?).getD 0 }

lemma foldl_mul_eq_prod (edges : List BiologicalEdge) :
    edges.foldl (fun b e => b * e.confidence) 1 =
      (edges.map (fun e => e.confidence)).prod := by
  rw [List.prod_eq_foldl, List.foldl_map]

lemma evidenceSupport_nonneg (edges : List BiologicalEdge)
    (evidence : List EvidenceItem) (h : ∀ ev ∈ evidence, 0 ≤ ev.confidence) :
    0 ≤ calculateEvidenceSupport edges evidence := by
  unfold calculateEvidenceSupport
  split
  · exact le_refl 0
  · lift_lets
    intro path_entities contrib
    split
    · exact le_refl 0
    · apply le_min (by norm_num)
      apply div_nonneg
      · apply List.sum_nonneg
        intro x hx
        rcases List.mem_filterMap.mp hx with ⟨ev, hev, hsome⟩
        by_cases hov : (List.filter (fun n =>
            ((ev.entities_mentioned.map (fun e => pyLower e.name)).dedup).contains n)
            (pathEntityNames edges)).isEmpty
        · rw [if_pos hov] at hsome
          exact absurd hsome (by simp)
        · rw [if_neg hov, Option.some_inj] at hsome
          subst hsome
          apply mul_nonneg (h ev hev)
          apply div_nonneg <;> positivity
      · positivity

lemma evidenceSupport_le_one (edges : List BiologicalEdge)
    (evidence : List EvidenceItem) :
    calculateEvidenceSupport edges evidence ≤ 1 := by
  unfold calculateEvidenceSupport
  split
  · norm_num
  · lift_lets
    intro path_entities contrib
    split
    · norm_num
    · exact min_le_left 1 _

lemma evaluatePath_cons_eq (pathId : String) (e : BiologicalEdge)
    (rest : List BiologicalEdge) (evidence : List EvidenceItem) :
    evaluatePath pathId (e :: rest) evidence =
      if min 1 (((e :: rest).map (fun x => x.confidence)).prod *
          PATH_LENGTH_PENALTY ^ ((e :: rest).length - 1) *
          (1 + (0.3 : ℚ) * calculateEvidenceSupport (e :: rest) evidence)) <
          MIN_PATH_CONFIDENCE then
        PathEval.rejected ⟨pathDescription (e :: rest), "Confidence below threshold",
          min 1 (((e :: rest).map (fun x => x.confidence)).prod *
            PATH_LENGTH_PENALTY ^ ((e :: rest).length - 1) *
            (1 + (0.3 : ℚ) * calculateEvidenceSupport (e :: rest) evidence))⟩
      else
        PathEval.valid ⟨pathId, e :: rest, generateRationale (e :: rest),
          min 1 (((e :: rest).map (fun x => x.confidence)).prod *
            PATH_LENGTH_PENALTY ^ ((e :: rest).length - 1) *
            (1 + (0.3 : ℚ) * calculateEvidenceSupport (e :: rest) evidence)),
          (e :: rest).length, calculateEvidenceSupport (e :: rest) evidence⟩ := by
  unfold evaluatePath
  dsimp only
  rw [foldl_mul_eq_prod]
  rw [show (1 + calculateEvidenceSupport (e :: rest) evidence * 0.3) =
      (1 + (0.3 : ℚ) * calculateEvidenceSupport (e :: rest) evidence) by ring]

/-- C3: for every nonempty edge list and evidence list (with evidence
confidences nonnegative, as the schema enforces), path evaluation
computes path confidence min(1, (∏ edge confidences) · 0.85^(len−1) ·
(1 + 0.3·evidence_support)) with evidence_support ∈ [0,1], accepts the
path exactly when this value is ≥ 0.15, and a rejected path records the
same path description together with the failing confidence value. -/
theorem pathway_evaluate_path_spec (pathId : String) (edges : List BiologicalEdge)
    (evidence : List EvidenceItem) (hne : edges ≠ [])
    (hconf : ∀ ev ∈ evidence, 0 ≤ ev.confidence) :
    0 ≤ calculateEvidenceSupport edges evidence ∧
    calculateEvidenceSupport edges evidence ≤ 1 ∧
    (MIN_PATH_CONFIDENCE ≤
        min 1 ((edges.map (fun e => e.confidence)).prod *
          PATH_LENGTH_PENALTY ^ (edges.length - 1) *
          (1 + (0.3 : ℚ) * calculateEvidenceSupport edges evidence)) →
      evaluatePath pathId edges evidence =
        PathEval.valid ⟨pathId, edges, generateRationale edges,
          min 1 ((edges.map (fun e => e.confidence)).prod *
            PATH_LENGTH_PENALTY ^ (edges.length - 1) *
            (1 + (0.3 : ℚ) * calculateEvidenceSupport edges evidence)),
          edges.length, calculateEvidenceSupport edges evidence⟩) ∧
    (min 1 ((edges.map (fun e => e.confidence)).prod *
        PATH_LENGTH_PENALTY ^ (edges.length - 1) *
        (1 + (0.3 : ℚ) * calculateEvidenceSupport edges evidence)) <
        MIN_PATH_CONFIDENCE →
      evaluatePath pathId edges evidence =
        PathEval.rejected ⟨pathDescription edges, "Confidence below threshold",
          min 1 ((edges.map (fun e => e.confidence)).prod *
            PATH_LENGTH_PENALTY ^ (edges.length - 1) *
            (1 + (0.3 : ℚ) * calculateEvidenceSupport edges evidence))⟩) := by
  cases edges with
  | nil => exact absurd rfl hne
  | cons e rest =>
    refine ⟨evidenceSupport_nonneg _ evidence hconf,
      evidenceSupport_le_one _ evidence, ?_, ?_⟩
    · intro hcmp
      rw [evaluatePath_cons_eq, if_neg (not_lt.mpr hcmp)]
    · intro hcmp
      rw [evaluatePath_cons_eq, if_pos hcmp]

/-- A concrete drug→disease treats edge with evidence attached. -/
def edgeTreatsC : BiologicalEdge :=
  ⟨"Metformin", "Cancer", RelationType.treats, 0.4, 0, []⟩

/-- Witness for C3: a one-edge path of confidence 0.4 and no evidence is
accepted at confidence 0.4. -/
theorem pathway_evaluate_path_spec_witness :
    evaluatePath "p0" [edgeTreatsC] [] =
      PathEval.valid ⟨"p0", [edgeTreatsC], "Metformin treats Cancer.", 0.4, 1, 0⟩ := by
  have h := (pathway_evaluate_path_spec "p0" [edgeTreatsC] [] (by decide)
    (by intro ev hev; exact absurd hev (by simp))).2.2.1
    (by with_unfolding_all decide)
  rw [h]
  with_unfolding_all decide

/-- Stable descending sort on rationals (the image of the source's
`sorted(..., key=confidence, reverse=True)` on the confidence values). -/
def sortDescQ (l : List ℚ) : List ℚ := l.mergeSort (fun a b => decide (b ≤ a))

lemma confDescLE_trans : ∀ a b c : PathwayPath,
    confDescLE a b → confDescLE b c → confDescLE a c := by
  intro a b c h1 h2
  simp only [confDescLE, decide_eq_true_eq] at h1 h2 ⊢
  exact le_trans h2 h1

lemma confDescLE_total : ∀ a b : PathwayPath,
    (confDescLE a b || confDescLE b a) = true := by
  intro a b
  simp only [confDescLE, Bool.or_eq_true, decide_eq_true_eq]
  exact le_total b.path_confidence a.path_confidence

lemma qDescLE_trans : ∀ a b c : ℚ,
    decide (b ≤ a) = true → decide (c ≤ b) = true → decide (c ≤ a) = true := by
  intro a b c h1 h2
  simp only [decide_eq_true_eq] at h1 h2 ⊢
  exact le_trans h2 h1

lemma qDescLE_total : ∀ a b : ℚ,
    (decide (b ≤ a) || decide (a ≤ b)) = true := by
  intro a b
  simp only [Bool.or_eq_true, decide_eq_true_eq]
  exact le_total b a

/-- Mapping confidence over the code's stable descending path sort gives
the descending sort of the confidences. -/
lemma map_conf_mergeSort_code (ps : List PathwayPath) :
    (ps.mergeSort confDescLE).map (fun p => p.path_confidence) =
      sortDescQ (ps.map (fun p => p.path_confidence)) := by
  haveI : IsAntisymm ℚ (fun a b : ℚ => b ≤ a) := ⟨fun a b h1 h2 => le_antisymm h2 h1⟩
  apply List.eq_of_perm_of_sorted (r := fun a b : ℚ => b ≤ a)
  · exact ((ps.mergeSort_perm confDescLE).map _).trans
      ((ps.map (fun p => p.path_confidence)).mergeSort_perm _).symm
  · rw [List.Sorted, List.pairwise_map]
    exact (List.sorted_mergeSort confDescLE_trans confDescLE_total ps).imp
      (fun h => of_decide_eq_true h)
  · rw [List.Sorted]
    exact (List.sorted_mergeSort qDescLE_trans qDescLE_total
      (ps.map (fun p => p.path_confidence))).imp (fun h => of_decide_eq_true h)

/-- The specification's tie-break order on accepted paths: higher
confidence first, then fewer edges, then lexicographically smaller
rationale. -/
def specLE (a b : PathwayPath) : Bool :=
  decide ((toLex (-a.path_confidence,
      toLex (a.path_length, a.biological_rationale)) :
        ℚ ×ₗ (ℕ ×ₗ String)) ≤
    toLex (-b.path_confidence, toLex (b.path_length, b.biological_rationale)))

lemma specLE_trans : ∀ a b c : PathwayPath, specLE a b → specLE b c → specLE a c := by
  intro a b c h1 h2
  simp only [specLE, decide_eq_true_eq] at h1 h2 ⊢
  exact le_trans h1 h2

lemma specLE_total : ∀ a b : PathwayPath, (specLE a b || specLE b a) = true := by
  intro a b
  simp only [specLE, Bool.or_eq_true, decide_eq_true_eq]
  exact le_total _ _

lemma specLE_conf (a b : PathwayPath) (h : specLE a b = true) :
    b.path_confidence ≤ a.path_confidence := by
  simp only [specLE, decide_eq_true_eq] at h
  rcases (Prod.Lex.le_iff _ _).mp h with hlt | ⟨heq, -⟩
  · have h' : -a.path_confidence < -b.path_confidence := hlt
    linarith
  · have h' : -a.path_confidence = -b.path_confidence := heq
    linarith

/-- Mapping confidence over the specification's tie-break sort also gives
the descending sort of the confidences. -/
lemma map_conf_mergeSort_spec (ps : List PathwayPath) :
    (ps.mergeSort specLE).map (fun p => p.path_confidence) =
      sortDescQ (ps.map (fun p => p.path_confidence)) := by
  haveI : IsAntisymm ℚ (fun a b : ℚ => b ≤ a) := ⟨fun a b h1 h2 => le_antisymm h2 h1⟩
  apply List.eq_of_perm_of_sorted (r := fun a b : ℚ => b ≤ a)
  · exact ((ps.mergeSort_perm specLE).map _).trans
      ((ps.map (fun p => p.path_confidence)).mergeSort_perm _).symm
  · rw [List.Sorted, List.pairwise_map]
    exact (List.sorted_mergeSort specLE_trans specLE_total ps).imp
      (fun h => specLE_conf _ _ h)
  · rw [List.Sorted]
    exact (List.sorted_mergeSort qDescLE_trans qDescLE_total
      (ps.map (fun p => p.path_confidence))).imp (fun h => of_decide_eq_true h)

/-- The aggregation depends only on the confidence multiset: it equals
the mean of the first three entries of the descending-sorted confidence
list. -/
lemma overallPlausibility_confs (ps : List PathwayPath) :
    overallPlausibility ps =
      if ps.isEmpty then 0
      else ((sortDescQ (ps.map (fun p => p.path_confidence))).take 3).sum /
        (((sortDescQ (ps.map (fun p => p.path_confidence))).take 3).length : ℚ) := by
  unfold overallPlausibility
  split
  · rfl
  · dsimp only
    rw [List.map_take, map_conf_mergeSort_code]
    congr 2
    simp [sortDescQ, List.length_take, List.length_mergeSort]

/-- C6: the simulator's overall plausibility equals the mean of the
confidences of the top-3 accepted paths — selected by higher confidence,
breaking ties by fewer edges and then by lexicographically smaller
rationale — or 0 when no path is accepted. -/
theorem simulator_plausibility_top3 (valid_paths : List PathwayPath) :
    overallPlausibility valid_paths =
      if valid_paths.isEmpty then 0
      else
        (((valid_paths.mergeSort specLE).take 3).map
            (fun p => p.path_confidence)).sum /
          ((((valid_paths.mergeSort specLE).take 3).length : ℚ)) := by
  rw [overallPlausibility_confs]
  split
  · rfl
  · conv_rhs => rw [List.map_take, map_conf_mergeSort_spec]
    congr 2
    simp [sortDescQ, List.length_take, List.length_mergeSort]

/-- A PathwayPath with the randomly drawn path id erased. -/
structure PathwayPathData where
  edges : List BiologicalEdge
  biological_rationale : String
  path_confidence : ℚ
  path_length : ℕ
  evidence_support_score : ℚ
deriving DecidableEq, Repr

/-- Erase the random id of an accepted path. -/
def erasePath (p : PathwayPath) : PathwayPathData :=
  ⟨p.edges, p.biological_rationale, p.path_confidence, p.path_length,
    p.evidence_support_score⟩

/-- A SimulationResult with the random simulation and path ids erased. -/
structure SimulationData where
  drug : String
  disease : String
  valid_paths : List PathwayPathData
  rejected_paths : List RejectedPath
  overall_plausibility : ℚ
  entities_traversed : ℕ
  edges_evaluated : ℕ
  max_path_depth : ℕ
deriving DecidableEq, Repr

/-- Erase the random ids of a simulation result. -/
def eraseResult (r : SimulationResult) : SimulationData :=
  ⟨r.drug, r.disease, r.valid_paths.map erasePath, r.rejected_paths,
    r.overall_plausibility, r.entities_traversed, r.edges_evaluated,
    r.max_path_depth⟩

/-- Path evaluation at two different fresh ids: either both runs accept,
with results equal after id erasure, or both reject with the same
record. -/
lemma evaluatePath_id_cases (id1 id2 : String) (edges : List BiologicalEdge)
    (evidence : List EvidenceItem) :
    (∃ p1 p2, evaluatePath id1 edges evidence = PathEval.valid p1 ∧
       evaluatePath id2 edges evidence = PathEval.valid p2 ∧
       erasePath p1 = erasePath p2) ∨
    (∃ r, evaluatePath id1 edges evidence = PathEval.rejected r ∧
       evaluatePath id2 edges evidence = PathEval.rejected r) := by
  cases edges with
  | nil => right; exact ⟨_, rfl, rfl⟩
  | cons e rest =>
    unfold evaluatePath
    dsimp only
    split
    · right; exact ⟨_, rfl, rfl⟩
    · left; exact ⟨_, _, rfl, rfl, rfl⟩

lemma bfsLoop_erase (gen1 gen2 : ℕ → String) (evidence : List EvidenceItem)
    (g : BiologicalGraph) (dname : String) :
    ∀ (fuel : ℕ) (queue : List (String × List BiologicalEdge × List String))
      (acc1 acc2 : BfsAcc),
    acc1.valid.map erasePath = acc2.valid.map erasePath →
    acc1.rejected = acc2.rejected →
    acc1.edges_evaluated = acc2.edges_evaluated →
    acc1.traversed = acc2.traversed →
    acc1.counter = acc2.counter →
    (bfsLoop gen1 evidence g dname fuel queue acc1).valid.map erasePath =
      (bfsLoop gen2 evidence g dname fuel queue acc2).valid.map erasePath ∧
    (bfsLoop gen1 evidence g dname fuel queue acc1).rejected =
      (bfsLoop gen2 evidence g dname fuel queue acc2).rejected ∧
    (bfsLoop gen1 evidence g dname fuel queue acc1).edges_evaluated =
      (bfsLoop gen2 evidence g dname fuel queue acc2).edges_evaluated ∧
    (bfsLoop gen1 evidence g dname fuel queue acc1).traversed =
      (bfsLoop gen2 evidence g dname fuel queue acc2).traversed ∧
    (bfsLoop gen1 evidence g dname fuel queue acc1).counter =
      (bfsLoop gen2 evidence g dname fuel queue acc2).counter := by
  intro fuel
  induction fuel with
  | zero =>
    intro queue acc1 acc2 hv hr he ht hc
    cases queue <;> exact ⟨hv, hr, he, ht, hc⟩
  | succ n ih =>
    intro queue acc1 acc2 hv hr he ht hc
    cases queue with
    | nil => exact ⟨hv, hr, he, ht, hc⟩
    | cons entry rest =>
      obtain ⟨current, path_edges, visited⟩ := entry
      simp only [bfsLoop]
      rw [ht, hc]
      split
      · split
        · refine ih rest _ _ ?_ ?_ ?_ ?_ ?_ <;> simp [hv, hr, he, ht, hc]
        · rcases evaluatePath_id_cases (gen1 acc2.counter) (gen2 acc2.counter)
              path_edges evidence with
            ⟨p1, p2, h1, h2, hpp⟩ | ⟨r, h1, h2⟩
          · rw [h1, h2]
            refine ih rest _ _ ?_ ?_ ?_ ?_ ?_ <;>
              simp [List.map_append, hv, hr, he, ht, hc, hpp]
          · rw [h1, h2]
            refine ih rest _ _ ?_ ?_ ?_ ?_ ?_ <;> simp [hv, hr, he, ht, hc]
      · split
        · refine ih rest _ _ ?_ ?_ ?_ ?_ ?_ <;> simp [hv, hr, he, ht, hc]
        · refine ih _ _ _ ?_ ?_ ?_ ?_ ?_ <;> simp [hv, hr, he, ht, hc]

/-- Modelled from the spec: the neighbor expansion order the
specification demands, a stable sort of the adjacency list by
(target_name, relation). -/
def sortNeighborsSpec (l : List (String × BiologicalEdge)) :
    List (String × BiologicalEdge) :=
  l.mergeSort (fun a b =>
    decide ((toLex (a.1, a.2.relation.value) : String ×ₗ String) ≤
      toLex (b.1, b.2.relation.value)))

/-- The concrete entity list of the C5 counterexample: gene entities
arrive in an order that is not sorted by name. -/
def entitiesC5 : List BiomedicalEntity :=
  [⟨"Metformin", EntityType.drug⟩, ⟨"ZEB1", EntityType.gene⟩,
   ⟨"AMPK", EntityType.gene⟩, ⟨"Cancer", EntityType.disease⟩]

/-- The graph the simulator builds from those entities and no evidence. -/
def graphC5 : BiologicalGraph := buildGraph entitiesC5 []

/-- C5 counterexample: the drug node's adjacency list is expanded in
insertion order ("zeb1" before "ampk"), not in the claimed stable sort
by (target_name, relation); and two runs differing only in the fresh
uuid draws give results that are not bit-identical (the accepted paths
carry different path_ids). -/
theorem pathway_determinism_claim_counterexample :
    getNeighbors graphC5 "metformin" ≠
      sortNeighborsSpec (getNeighbors graphC5 "metformin") ∧
    simulatePathways (fun _ => "a") "sim" 100 graphC5
        ⟨"Metformin", EntityType.drug⟩ ⟨"Cancer", EntityType.disease⟩ [] ≠
      simulatePathways (fun _ => "b") "sim" 100 graphC5
        ⟨"Metformin", EntityType.drug⟩ ⟨"Cancer", EntityType.disease⟩ [] := by
  constructor
  · with_unfolding_all decide
  · with_unfolding_all decide

/-- C5 (amended): for a fixed simulator input, the set and order of
accepted and rejected paths — and every other output field — are
identical across runs once the randomly drawn uuid identifiers
(simulation id and path ids) are erased; neighbor expansion follows the
adjacency-list insertion order. -/
theorem pathway_sim_deterministic_up_to_ids (fuel : ℕ) (g : BiologicalGraph)
    (drug disease : BiomedicalEntity) (evidence : List EvidenceItem)
    (gen1 gen2 : ℕ → String) (simId1 simId2 : String) :
    eraseResult (simulatePathways gen1 simId1 fuel g drug disease evidence) =
      eraseResult (simulatePathways gen2 simId2 fuel g drug disease evidence) := by
  obtain ⟨hv, hr, he, ht, hc⟩ := bfsLoop_erase gen1 gen2 evidence g
    (pyLower disease.name) fuel
    [(pyLower drug.name, [], [pyLower drug.name])]
    ⟨[], [], 0, [], 0⟩ ⟨[], [], 0, [], 0⟩ rfl rfl rfl rfl rfl
  unfold simulatePathways eraseResult
  dsimp only
  simp only [SimulationData.mk.injEq]
  refine ⟨trivial, trivial, hv, hr, ?_, by rw [ht], he, ?_⟩
  · -- overall plausibility depends only on the confidences
    rw [overallPlausibility_confs, overallPlausibility_confs]
    have hconf : (bfsLoop gen1 evidence g (pyLower disease.name) fuel
        [(pyLower drug.name, [], [pyLower drug.name])] ⟨[], [], 0, [], 0⟩).valid.map
          (fun p => p.path_confidence) =
        (bfsLoop gen2 evidence g (pyLower disease.name) fuel
        [(pyLower drug.name, [], [pyLower drug.name])] ⟨[], [], 0, [], 0⟩).valid.map
          (fun p => p.path_confidence) := by
      have := congrArg (List.map (fun d => d.path_confidence)) hv
      simpa [Function.comp, erasePath] using this
    rw [hconf]
    have hlen := congrArg List.length hv
    simp only [List.length_map] at hlen
    have hiff : ((bfsLoop gen1 evidence g (pyLower disease.name) fuel
        [(pyLower drug.name, [], [pyLower drug.name])] ⟨[], [], 0, [], 0⟩).valid.isEmpty) =
        ((bfsLoop gen2 evidence g (pyLower disease.name) fuel
        [(pyLower drug.name, [], [pyLower drug.name])] ⟨[], [], 0, [], 0⟩).valid.isEmpty) := by
      have hgen : ∀ l m : List PathwayPath, l.length = m.length → l.isEmpty = m.isEmpty := by
        intro l m h
        cases l <;> cases m <;> simp_all
      exact hgen _ _ hlen
    rw [hiff]
  · -- max path depth depends only on the path lengths
    have hlens : (bfsLoop gen1 evidence g (pyLower disease.name) fuel
        [(pyLower drug.name, [], [pyLower drug.name])] ⟨[], [], 0, [], 0⟩).valid.map
          (fun p => p.path_length) =
        (bfsLoop gen2 evidence g (pyLower disease.name) fuel
        [(pyLower drug.name, [], [pyLower drug.name])] ⟨[], [], 0, [], 0⟩).valid.map
          (fun p => p.path_length) := by
      have := congrArg (List.map (fun d => d.path_length)) hv
      simpa [Function.comp, erasePath] using this
    rw [hlens]

/-- C10: edge identity in the in-memory graph is the triple
(source_entity, target_entity, relation), ignoring confidence and
evidence fields: adding an edge whose identity is already present is a
no-op, so adding a second edge with the same identity as one just added
(for example the canonical drug→disease treats edge at confidence 0.4
after an earlier evidence-derived edge) leaves the graph — and hence
the earlier edge's stored confidence — unchanged. -/
theorem edge_identity_merge :
    (∀ (g : BiologicalGraph) (e : BiologicalEdge),
        g.edgesList.any (fun e0 => BiologicalEdge.identEq e0 e) = true →
        addEdge g e = g) ∧
    (∀ (g : BiologicalGraph) (e e' : BiologicalEdge),
        BiologicalEdge.identEq e e' = true →
        addEdge (addEdge g e) e' = addEdge g e) := by
  have h1 : ∀ (g : BiologicalGraph) (e : BiologicalEdge),
      g.edgesList.any (fun e0 => BiologicalEdge.identEq e0 e) = true →
      addEdge g e = g := by
    intro g e h
    unfold addEdge
    rw [if_pos h]
  refine ⟨h1, ?_⟩
  intro g e e' hee
  apply h1
  unfold addEdge
  by_cases h : g.edgesList.any (fun e0 => BiologicalEdge.identEq e0 e) = true
  · rw [if_pos h]
    rcases List.any_eq_true.mp h with ⟨e0, he0, hid⟩
    apply List.any_eq_true.mpr
    refine ⟨e0, he0, ?_⟩
    simp only [BiologicalEdge.identEq, decide_eq_true_eq] at hid hee ⊢
    exact ⟨hid.1.trans hee.1, hid.2.1.trans hee.2.1, hid.2.2.trans hee.2.2⟩
  · rw [if_neg h]
    apply List.any_eq_true.mpr
    exact ⟨e, by simp, hee⟩

/-- An evidence-derived treats edge at confidence 0.8. -/
def evidenceEdgeC : BiologicalEdge :=
  ⟨"Metformin", "Cancer", RelationType.treats, 0.8, 1, ["30000001"]⟩

/-- The canonical treats edge at confidence 0.4 with the same identity. -/
def canonicalEdgeC : BiologicalEdge :=
  ⟨"Metformin", "Cancer", RelationType.treats, 0.4, 0, []⟩

/-- Witness for C10: after the evidence edge is in the graph, adding the
canonical treats edge is a no-op, so the stored confidence stays 0.8. -/
theorem edge_identity_merge_witness :
    (addEdge (addEdge ⟨[], []⟩ evidenceEdgeC) canonicalEdgeC).edgesList =
      [evidenceEdgeC] := by
  rw [edge_identity_merge.2 _ _ _ (by decide)]
  with_unfolding_all decide

/- ===================================================================
   Ranking stage (src/backend/agents/ranking.py).
   The weights are the RankingWeights dataclass defaults (0.35, 0.25,
   0.20, 0.15, 0.05 with normalizers 20 and 5).  The DrugCandidate
   model above carries list-valued fields as lengths.
   =================================================================== -/

/-- The query constraint fields read by the ranking stage
(DrugRepurposingQuery.min_confidence / max_candidates). -/
structure DrugQuery where
  min_confidence : ℚ
  max_candidates : ℕ
deriving DecidableEq, Repr

/-- Model of `RankingAgent._calculate_composite_score` with the default
weights. -/
def compositeScore (c : DrugCandidate) : ℚ :=
  0.35 * c.overall_score + 0.25 * c.confidence +
  0.20 * min ((c.evidence_count : ℚ) / 20) 1 +
  0.15 * min ((c.mechanism_paths : ℚ) / 5) 1 +
  0.05 * c.novelty_score

/-- The comparator of the source's
`sort(key=(composite, confidence, evidence_count), reverse=True)`:
stable descending by the key triple. -/
def rankSortLE (p q : ℚ × DrugCandidate) : Bool :=
  decide ((toLex (q.1, toLex (q.2.confidence, q.2.evidence_count)) :
      ℚ ×ₗ (ℚ ×ₗ ℕ)) ≤
    toLex (p.1, toLex (p.2.confidence, p.2.evidence_count)))

/-- The filter/rank/truncate loop of `RankingAgent.process`: skip
candidates below min_confidence, assign rank `len(filtered)+1` on
append, and stop once max_candidates are collected. -/
def rankLoop (query : DrugQuery) :
    List (ℚ × DrugCandidate) → List DrugCandidate → List DrugCandidate
  | [], acc => acc
  | (_, c) :: rest, acc =>
    if c.confidence < query.min_confidence then rankLoop query rest acc
    else
      let acc' := acc ++ [{ c with rank := some (acc.length + 1) }]
      if query.max_candidates ≤ acc'.length then acc'
      else rankLoop query rest acc'

/-- Model of `RankingAgent.process`. -/
def processRanking (query : DrugQuery) (candidates : List DrugCandidate) :
    List DrugCandidate :=
  if candidates.isEmpty then []
  else
    let scored := candidates.map (fun c => (compositeScore c, c))
    let sorted := scored.mergeSort rankSortLE
    rankLoop query sorted []

/-- Assign ranks start, start+1, … in list order. -/
def assignRanks (start : ℕ) : List DrugCandidate → List DrugCandidate
  | [] => []
  | c :: rest => { c with rank := some start } :: assignRanks (start + 1) rest

/-- Modelled from the spec: rank by scoring each candidate, sorting
descending by (composite, confidence, evidence_count), filtering to
confidence ≥ min_confidence, truncating to max_candidates, and
assigning rank 1, 2, … in output order. -/
def rankSpec (query : DrugQuery) (candidates : List DrugCandidate) :
    List DrugCandidate :=
  let sorted := (candidates.map (fun c => (compositeScore c, c))).mergeSort rankSortLE
  let filtered := sorted.filter (fun p => decide (query.min_confidence ≤ p.2.confidence))
  assignRanks 1 ((filtered.take query.max_candidates).map (fun p => p.2))

lemma rankLoop_spec (query : DrugQuery) :
    ∀ (l : List (ℚ × DrugCandidate)) (acc : List DrugCandidate),
    acc.length < query.max_candidates →
    rankLoop query l acc =
      acc ++ assignRanks (acc.length + 1)
        (((l.filter (fun p => decide (query.min_confidence ≤ p.2.confidence))).take
            (query.max_candidates - acc.length)).map (fun p => p.2)) := by
  intro l
  induction l with
  | nil => intro acc hacc; simp [rankLoop, assignRanks]
  | cons p rest ih =>
    intro acc hacc
    obtain ⟨s, c⟩ := p
    simp only [rankLoop]
    by_cases hlow : c.confidence < query.min_confidence
    · rw [if_pos hlow, ih acc hacc, List.filter_cons_of_neg (by simpa using hlow)]
    · rw [if_neg hlow, List.filter_cons_of_pos (by simpa using not_lt.mp hlow)]
      have htake : (query.max_candidates - acc.length) =
          (query.max_candidates - acc.length - 1) + 1 := by omega
      rw [htake, List.take_succ_cons, List.map_cons]
      by_cases hfull : query.max_candidates ≤ acc.length + 1
      · rw [if_pos (by simpa using hfull)]
        have hz : query.max_candidates - acc.length - 1 = 0 := by omega
        simp [hz, assignRanks]
      · rw [if_neg (by simpa using hfull)]
        rw [ih _ (by simp; omega)]
        simp only [List.length_append, List.length_cons, List.length_nil]
        have e1 : acc.length + (0 + 1) + 1 = acc.length + 1 + 1 := by omega
        have e2 : query.max_candidates - (acc.length + (0 + 1)) =
            query.max_candidates - acc.length - 1 := by omega
        rw [e1, e2, List.append_assoc, List.singleton_append]
        rfl

/-- C4: the ranking stage returns exactly the candidates scored by
0.35·overall + 0.25·confidence + 0.20·min(evidence/20,1) +
0.15·min(paths/5,1) + 0.05·novelty, stably sorted descending by
(composite, confidence, evidence_count), filtered to confidence ≥
query.min_confidence, truncated to at most query.max_candidates, with
rank 1, 2, … assigned in output order; being a pure function of its
inputs, two runs on the same candidate list agree. -/
theorem ranking_matches_spec (query : DrugQuery) (candidates : List DrugCandidate)
    (hmax : 1 ≤ query.max_candidates) :
    processRanking query candidates = rankSpec query candidates := by
  unfold processRanking rankSpec
  split
  · rename_i hempty
    rw [List.isEmpty_iff] at hempty
    subst hempty
    simp [List.mergeSort, assignRanks]
  · rw [rankLoop_spec query _ [] (by simpa using hmax)]
    simp

/-- A concrete ranking query (min_confidence 0.5, max 10 candidates). -/
def queryC4 : DrugQuery := ⟨0.5, 10⟩

/-- Two concrete candidates for the ranking witness. -/
def candsC4 : List DrugCandidate :=
  [⟨"c1", "Metformin", "Cancer", "h1", "m1", 0.8, 0.7, 0.6, 2, 10, 3, none⟩,
   ⟨"c2", "Aspirin", "Cancer", "h2", "m2", 0.9, 0.4, 0.5, 1, 5, 2, none⟩]

/-- Witness for C4 at a concrete query and candidate list. -/
theorem ranking_matches_spec_witness :
    processRanking queryC4 candsC4 = rankSpec queryC4 candsC4 :=
  ranking_matches_spec queryC4 candsC4 (by decide)

/- ===================================================================
   Reasoning stage candidate scoring
   (src/backend/agents/reasoning.py, _generate_candidate_from_simulation).
   The LLM call generate_hypothesis_with_llm is external: its returned
   hypothesis, mechanism summary and confidence enter as Option-valued
   parameters (None models an absent dict key, taken by `.get`'s
   default).  The random candidate uuid enters as `candId`.
   =================================================================== -/

/-- The first accepted path's rationale under the `top_path` property
(`max(valid_paths, key=path_confidence)` returns the first maximum), or
"" when there is none. -/
def topPathRationale (sim : SimulationResult) : String :=
  match sim.valid_paths with
  | [] => ""
  | p :: rest =>
    (rest.foldl (fun best q =>
      if best.path_confidence < q.path_confidence then q else best) p).biological_rationale

/-- Model of `_generate_candidate_from_simulation`. -/
def generateCandidateFromSimulation (candId : String)
    (drug disease : String) (llmHypothesis llmMechanism : Option String)
    (llmConf : Option ℚ) (sim : SimulationResult)
    (mechanism_paths evidence_count citations : ℕ) : DrugCandidate :=
  let sim_score := sim.overall_plausibility
  let evidence_score := (evidence_count : ℚ) / 20
  let overall_score := sim_score * 0.6 + min evidence_score 0.4
  { candidate_id := candId
    drug := drug
    target_disease := disease
    hypothesis := llmHypothesis.getD (drug ++ " may treat " ++ disease ++ ".")
    mechanism_summary := llmMechanism.getD (topPathRationale sim)
    overall_score := min 1 overall_score
    confidence := llmConf.getD sim_score
    novelty_score := 0.6
    mechanism_paths := min mechanism_paths 3
    evidence_count := min evidence_count 5
    citations := min citations 5
    rank := none }

/-- A simulation result actually produced by the simulator model on the
concrete C5 graph: plausibility 91/300 with no literature evidence. -/
def simC9 : SimulationResult :=
  simulatePathways (fun _ => "a") "sim" 100 graphC5
    ⟨"Metformin", EntityType.drug⟩ ⟨"Cancer", EntityType.disease⟩ []

/-- C9 counterexample: a candidate generated from a real simulation
result (plausibility 91/300, no evidence, LLM confidence absent) has
confidence 91/300 but overall_score 91/500 < 91/300, refuting
confidence ≤ overall_score. -/
theorem candidate_confidence_exceeds_overall :
    (generateCandidateFromSimulation "c" "Metformin" "Cancer" none none none
        simC9 3 0 0).overall_score <
      (generateCandidateFromSimulation "c" "Metformin" "Cancer" none none none
        simC9 3 0 0).confidence := by
  with_unfolding_all decide

/-- C9 (amended): for a candidate generated from a simulation result
whose confidence defaults to the simulation plausibility (no LLM-supplied
confidence), confidence ≤ overall_score holds whenever the evidence term
min(|evidence|/20, 0.4) is at least 0.4 × plausibility (in particular
whenever at least 8 evidence items are present); with fewer evidence
items the confidence can exceed the overall score. -/
theorem candidate_conf_le_overall (candId drug disease : String)
    (llmHypothesis llmMechanism : Option String) (sim : SimulationResult)
    (mechanism_paths evidence_count citations : ℕ)
    (h1 : sim.overall_plausibility ≤ 1)
    (hev : (0.4 : ℚ) * sim.overall_plausibility ≤
      min ((evidence_count : ℚ) / 20) 0.4) :
    (generateCandidateFromSimulation candId drug disease llmHypothesis
        llmMechanism none sim mechanism_paths evidence_count citations).confidence ≤
      (generateCandidateFromSimulation candId drug disease llmHypothesis
        llmMechanism none sim mechanism_paths evidence_count citations).overall_score := by
  unfold generateCandidateFromSimulation
  dsimp only [Option.getD]
  apply le_min h1
  nlinarith [hev]

/-- Witness for C9 (amended): plausibility 1/2 with 20 evidence items
gives confidence 1/2 ≤ overall score. -/
theorem candidate_conf_le_overall_witness :
    (generateCandidateFromSimulation "c" "d" "x" none none none
        ⟨"s", "d", "x", [], [], 0.5, 0, 0, 0⟩ 0 20 0).confidence ≤
      (generateCandidateFromSimulation "c" "d" "x" none none none
        ⟨"s", "d", "x", [], [], 0.5, 0, 0, 0⟩ 0 20 0).overall_score :=
  candidate_conf_le_overall "c" "d" "x" none none
    ⟨"s", "d", "x", [], [], 0.5, 0, 0, 0⟩ 0 20 0
    (by norm_num) (by norm_num)

/- ===================================================================
   Knowledge-graph upsert (src/backend/dal/neo4j_dal.py,
   upsert_relation).  The Cypher MERGE semantics over the property
   graph are modelled as an insertion-ordered association store: nodes
   are keyed by (label, name) and relationships by
   (source label, source name, relation type, target label, target
   name).  ON CREATE side effects not read back (node ids, created_at
   timestamps) are not modelled.
   =================================================================== -/

/-- The stored properties of one relationship row. -/
structure RelRecord where
  confidence : ℚ
  pmids : List String
  extraction_method : String
deriving DecidableEq, Repr

/-- The property-graph state touched by `upsert_relation`. -/
structure GraphStore where
  nodes : List (String × String)
  rels : List ((String × String × String × String × String) × RelRecord)
deriving DecidableEq, Repr

/-- Python `str.capitalize`: first character upper-cased, the rest
lower-cased (ASCII model). -/
def pyCapitalize (s : String) : String :=
  match s.data with
  | [] => ""
  | c :: cs => ⟨asciiUpper c :: cs.map asciiLower⟩

/-- Label sanitization of `upsert_relation`: whitelist the capitalized
kind, else "Entity". -/
def sanitizeLabel (t : String) : String :=
  let c := pyCapitalize t
  if ["Drug", "Disease", "Gene", "Protein", "Pathway"].contains c then c else "Entity"

/-- Relation sanitization of `upsert_relation`: upper-case, replace
spaces with underscores, whitelist, else "ASSOCIATED_WITH". -/
def sanitizeRelation (r : String) : String :=
  let rt : String := ⟨(pyUpper r).data.map (fun c => if c = ' ' then '_' else c)⟩
  if ["TARGETS", "INHIBITS", "ACTIVATES", "BINDS", "REGULATES",
      "ASSOCIATED_WITH", "TREATS", "CAUSES", "PREVENTS",
      "PARTICIPATES_IN"].contains rt then rt
  else "ASSOCIATED_WITH"

/-- MERGE of a node by (label, name). -/
def addNode (st : GraphStore) (label name : String) : GraphStore :=
  if st.nodes.contains (label, name) then st
  else { st with nodes := st.nodes ++ [(label, name)] }

/-- The ON MATCH clause: append the pmid if new, raise the confidence to
the max, leave extraction_method untouched. -/
def mergeRelRecord (confidence : ℚ) (pmid : String) (r : RelRecord) : RelRecord :=
  { confidence := if r.confidence < confidence then confidence else r.confidence
    pmids := if r.pmids.contains pmid then r.pmids else r.pmids ++ [pmid]
    extraction_method := r.extraction_method }

/-- The relationship key used by the MERGE pattern. -/
def relKey (source_name source_type relation target_name target_type : String) :
    String × String × String × String × String :=
  (sanitizeLabel source_type, source_name, sanitizeRelation relation,
    sanitizeLabel target_type, target_name)

/-- Model of `upsert_relation`. -/
def upsertRelation (st : GraphStore) (source_name source_type relation
    target_name target_type : String) (confidence : ℚ) (pmid : String)
    (extraction_method : String) : GraphStore :=
  let s_label := sanitizeLabel source_type
  let t_label := sanitizeLabel target_type
  let key := relKey source_name source_type relation target_name target_type
  let st1 := addNode st s_label source_name
  let st2 := addNode st1 t_label target_name
  if st2.rels.any (fun p => decide (p.1 = key)) then
    { st2 with rels := st2.rels.map (fun p =>
        if p.1 = key then (p.1, mergeRelRecord confidence pmid p.2) else p) }
  else
    { st2 with rels := st2.rels ++ [(key, ⟨confidence, [pmid], extraction_method⟩)] }

/-- Look up the first stored record for a relationship key. -/
def lookupRel (st : GraphStore) (key : String × String × String × String × String) :
    Option RelRecord :=
  (st.rels.find? (fun p => decide (p.1 = key))).map (fun p => p.2)

lemma addNode_mem (st : GraphStore) (label name : String) :
    (addNode st label name).nodes.contains (label, name) = true := by
  unfold addNode
  split
  · assumption
  · simp

lemma addNode_idem (st : GraphStore) (label name : String)
    (h : st.nodes.contains (label, name) = true) :
    addNode st label name = st := by
  unfold addNode
  rw [if_pos h]

lemma addNode_rels (st : GraphStore) (label name : String) :
    (addNode st label name).rels = st.rels := by
  unfold addNode
  split <;> rfl

lemma addNode_nodes_mono (st : GraphStore) (label name l n : String)
    (h : st.nodes.contains (l, n) = true) :
    (addNode st label name).nodes.contains (l, n) = true := by
  unfold addNode
  split
  · exact h
  · simp_all

lemma mergeRelRecord_idem (confidence : ℚ) (pmid : String) (r : RelRecord) :
    mergeRelRecord confidence pmid (mergeRelRecord confidence pmid r) =
      mergeRelRecord confidence pmid r := by
  unfold mergeRelRecord
  by_cases hc : r.confidence < confidence
  · by_cases hp : pmid ∈ r.pmids
    · simp [hc, hp]
    · simp [hc, hp]
  · by_cases hp : pmid ∈ r.pmids
    · simp [hc, hp]
    · simp [hc, hp]

lemma find?_map_upd (l : List ((String × String × String × String × String) × RelRecord))
    (key : String × String × String × String × String) (f : RelRecord → RelRecord) :
    (l.map (fun p => if p.1 = key then (p.1, f p.2) else p)).find?
        (fun p => decide (p.1 = key)) =
      (l.find? (fun p => decide (p.1 = key))).map (fun p => (p.1, f p.2)) := by
  induction l with
  | nil => rfl
  | cons p r ih =>
    by_cases hp : p.1 = key
    · simp [List.find?_cons, hp, ih]
    · simp [List.find?_cons, hp, ih]

lemma any_map_upd (l : List ((String × String × String × String × String) × RelRecord))
    (key key' : String × String × String × String × String) (f : RelRecord → RelRecord) :
    (l.map (fun p => if p.1 = key then (p.1, f p.2) else p)).any
        (fun p => decide (p.1 = key')) =
      l.any (fun p => decide (p.1 = key')) := by
  induction l with
  | nil => rfl
  | cons p r ih =>
    simp only [List.map_cons, List.any_cons, ih]
    congr 1
    split <;> rfl

lemma upsert_nodes (st : GraphStore) (sn stp rel tn ttp : String) (conf : ℚ)
    (pmid meth : String) :
    (upsertRelation st sn stp rel tn ttp conf pmid meth).nodes =
      (addNode (addNode st (sanitizeLabel stp) sn) (sanitizeLabel ttp) tn).nodes := by
  unfold upsertRelation
  dsimp only
  split <;> rfl

lemma upsert_rels_match (st : GraphStore) (sn stp rel tn ttp : String) (conf : ℚ)
    (pmid meth : String)
    (h : st.rels.any (fun p =>
      decide (p.1 = relKey sn stp rel tn ttp)) = true) :
    (upsertRelation st sn stp rel tn ttp conf pmid meth).rels =
      st.rels.map (fun p => if p.1 = relKey sn stp rel tn ttp then
        (p.1, mergeRelRecord conf pmid p.2) else p) := by
  unfold upsertRelation
  dsimp only
  rw [addNode_rels, addNode_rels]
  rw [if_pos h]

lemma upsert_rels_create (st : GraphStore) (sn stp rel tn ttp : String) (conf : ℚ)
    (pmid meth : String)
    (h : st.rels.any (fun p =>
      decide (p.1 = relKey sn stp rel tn ttp)) = false) :
    (upsertRelation st sn stp rel tn ttp conf pmid meth).rels =
      st.rels ++ [(relKey sn stp rel tn ttp, ⟨conf, [pmid], meth⟩)] := by
  unfold upsertRelation
  dsimp only
  rw [addNode_rels, addNode_rels]
  rw [if_neg (by simp [h])]

lemma upsert_rels_any (st : GraphStore) (sn stp rel tn ttp : String) (conf : ℚ)
    (pmid meth : String) :
    (upsertRelation st sn stp rel tn ttp conf pmid meth).rels.any
      (fun p => decide (p.1 = relKey sn stp rel tn ttp)) = true := by
  by_cases h : st.rels.any (fun p => decide (p.1 = relKey sn stp rel tn ttp)) = true
  · rw [upsert_rels_match st sn stp rel tn ttp conf pmid meth h, any_map_upd]
    exact h
  · rw [upsert_rels_create st sn stp rel tn ttp conf pmid meth
      (Bool.eq_false_iff.mpr h)]
    apply List.any_eq_true.mpr
    refine ⟨(relKey sn stp rel tn ttp, ⟨conf, [pmid], meth⟩), ?_, ?_⟩
    · simp
    · simp

lemma lookupRel_none_find (st : GraphStore)
    (key : String × String × String × String × String)
    (hnone : lookupRel st key = none) :
    st.rels.find? (fun p => decide (p.1 = key)) = none := by
  unfold lookupRel at hnone
  cases hf : st.rels.find? (fun p => decide (p.1 = key)) with
  | none => rfl
  | some v => rw [hf] at hnone; simp at hnone

lemma lookupRel_some_find (st : GraphStore)
    (key : String × String × String × String × String) (r : RelRecord)
    (hsome : lookupRel st key = some r) :
    ∃ pr, st.rels.find? (fun p => decide (p.1 = key)) = some pr ∧ pr.2 = r := by
  unfold lookupRel at hsome
  cases hf : st.rels.find? (fun p => decide (p.1 = key)) with
  | none => rw [hf] at hsome; simp at hsome
  | some v =>
    rw [hf] at hsome
    simp at hsome
    exact ⟨v, rfl, hsome⟩

/-- C7 (amended): `upsert_relation` merges by the relationship identity
(source, target, relation): repeating the same upsert any number of
times leaves the stored record unchanged after the first write; on a
match the stored confidence becomes max(existing, incoming) — hence is
monotonically non-decreasing — the pmid list grows by set-union with
the incoming citation, and the stored extraction_method is set on
creation and never changed by later upserts. -/
theorem upsert_relation_merge (st : GraphStore) (sn stp rel tn ttp : String)
    (conf : ℚ) (pmid meth : String) :
    (upsertRelation (upsertRelation st sn stp rel tn ttp conf pmid meth)
        sn stp rel tn ttp conf pmid meth =
      upsertRelation st sn stp rel tn ttp conf pmid meth) ∧
    (lookupRel st (relKey sn stp rel tn ttp) = none →
      lookupRel (upsertRelation st sn stp rel tn ttp conf pmid meth)
        (relKey sn stp rel tn ttp) = some ⟨conf, [pmid], meth⟩) ∧
    (∀ r : RelRecord, lookupRel st (relKey sn stp rel tn ttp) = some r →
      lookupRel (upsertRelation st sn stp rel tn ttp conf pmid meth)
          (relKey sn stp rel tn ttp) = some (mergeRelRecord conf pmid r) ∧
        r.confidence ≤ (mergeRelRecord conf pmid r).confidence ∧
        conf ≤ (mergeRelRecord conf pmid r).confidence ∧
        pmid ∈ (mergeRelRecord conf pmid r).pmids ∧
        (∀ q ∈ r.pmids, q ∈ (mergeRelRecord conf pmid r).pmids) ∧
        (mergeRelRecord conf pmid r).extraction_method = r.extraction_method) := by
  refine ⟨?_, ?_, ?_⟩
  · -- idempotence
    have hnodes : (upsertRelation (upsertRelation st sn stp rel tn ttp conf pmid meth)
        sn stp rel tn ttp conf pmid meth).nodes =
        (upsertRelation st sn stp rel tn ttp conf pmid meth).nodes := by
      rw [upsert_nodes]
      have hs : (upsertRelation st sn stp rel tn ttp conf pmid meth).nodes.contains
          (sanitizeLabel stp, sn) = true := by
        rw [upsert_nodes]
        exact addNode_nodes_mono _ _ _ _ _ (addNode_mem st (sanitizeLabel stp) sn)
      rw [addNode_idem _ _ _ hs]
      have ht : (upsertRelation st sn stp rel tn ttp conf pmid meth).nodes.contains
          (sanitizeLabel ttp, tn) = true := by
        rw [upsert_nodes]
        exact addNode_mem _ (sanitizeLabel ttp) tn
      rw [addNode_idem _ _ _ ht]
    have hrels : (upsertRelation (upsertRelation st sn stp rel tn ttp conf pmid meth)
        sn stp rel tn ttp conf pmid meth).rels =
        (upsertRelation st sn stp rel tn ttp conf pmid meth).rels := by
      rw [upsert_rels_match _ sn stp rel tn ttp conf pmid meth
        (upsert_rels_any st sn stp rel tn ttp conf pmid meth)]
      by_cases h : st.rels.any (fun p => decide (p.1 = relKey sn stp rel tn ttp)) = true
      · rw [upsert_rels_match st sn stp rel tn ttp conf pmid meth h, List.map_map]
        apply List.map_congr_left
        intro p _
        simp only [Function.comp_apply]
        by_cases hp : p.1 = relKey sn stp rel tn ttp
        · simp [hp, mergeRelRecord_idem]
        · simp [hp]
      · rw [upsert_rels_create st sn stp rel tn ttp conf pmid meth
          (Bool.eq_false_iff.mpr h), List.map_append]
        have hold : st.rels.map (fun p => if p.1 = relKey sn stp rel tn ttp then
            (p.1, mergeRelRecord conf pmid p.2) else p) = st.rels := by
          conv_rhs => rw [← List.map_id st.rels]
          apply List.map_congr_left
          intro p hp
          simp only [id]
          rw [if_neg]
          intro hk
          exact h (List.any_eq_true.mpr ⟨p, hp, by simp [hk]⟩)
        rw [hold]
        congr 1
        simp [mergeRelRecord]
    cases hu1 : upsertRelation (upsertRelation st sn stp rel tn ttp conf pmid meth)
        sn stp rel tn ttp conf pmid meth
    cases hu2 : upsertRelation st sn stp rel tn ttp conf pmid meth
    rw [hu1, hu2] at hnodes hrels
    simp only at hnodes hrels
    simp [hnodes, hrels]
  · -- create
    intro hnone
    have hfind := lookupRel_none_find st _ hnone
    have hany : st.rels.any (fun p =>
        decide (p.1 = relKey sn stp rel tn ttp)) = false := by
      apply Bool.eq_false_iff.mpr
      intro hc
      rcases List.any_eq_true.mp hc with ⟨p, hp, hk⟩
      exact (List.find?_eq_none.mp hfind p hp) hk
    unfold lookupRel
    rw [upsert_rels_create st sn stp rel tn ttp conf pmid meth hany,
      List.find?_append, hfind]
    simp
  · -- match
    intro r hsome
    obtain ⟨pr, hfind, hsnd⟩ := lookupRel_some_find st _ r hsome
    have hpred := List.find?_some hfind
    have hany : st.rels.any (fun p =>
        decide (p.1 = relKey sn stp rel tn ttp)) = true :=
      List.any_eq_true.mpr ⟨pr, List.mem_of_find?_eq_some hfind, hpred⟩
    refine ⟨?_, ?_, ?_, ?_, ?_, ?_⟩
    · unfold lookupRel
      rw [upsert_rels_match st sn stp rel tn ttp conf pmid meth hany,
        find?_map_upd, hfind]
      simp [hsnd]
    · unfold mergeRelRecord
      dsimp only
      split
      · exact le_of_lt (by assumption)
      · exact le_refl _
    · unfold mergeRelRecord
      dsimp only
      split
      · exact le_refl _
      · exact not_lt.mp (by assumption)
    · unfold mergeRelRecord
      dsimp only
      split
      · rename_i hcon
        simpa using hcon
      · simp
    · intro q hq
      unfold mergeRelRecord
      dsimp only
      split
      · exact hq
      · simp [hq]
    · rfl

/-- State after first upserting the Metformin-TREATS-Cancer triple at
confidence 0.5 with citation p1 and extraction method "pattern". -/
def storeC7 : GraphStore :=
  upsertRelation ⟨[], []⟩ "Metformin" "drug" "TREATS" "Cancer" "disease"
    0.5 "p1" "pattern"

/-- C7 counterexample: upserting the same triple again with the
higher-authority extraction method "curated" (and higher confidence)
leaves the stored extraction_method at "pattern" — the claimed monotone
upgrade along pattern < ner_model < scorer_model < curated does not
happen (ON MATCH never touches the field). -/
theorem upsert_method_not_upgraded :
    lookupRel (upsertRelation storeC7 "Metformin" "drug" "TREATS" "Cancer"
        "disease" 0.7 "p2" "curated")
        (relKey "Metformin" "drug" "TREATS" "Cancer" "disease") =
      some ⟨0.7, ["p1", "p2"], "pattern"⟩ ∧
    ("pattern" : String) ≠ "curated" := by
  constructor
  · with_unfolding_all decide
  · decide

/-- Witness for C7 (amended): a matching upsert on the concrete store
rewrites the record to the merge of the stored one. -/
theorem upsert_relation_merge_witness :
    lookupRel (upsertRelation storeC7 "Metformin" "drug" "TREATS" "Cancer"
        "disease" 0.7 "p2" "curated")
        (relKey "Metformin" "drug" "TREATS" "Cancer" "disease") =
      some (mergeRelRecord 0.7 "p2" ⟨0.5, ["p1"], "pattern"⟩) :=
  ((upsert_relation_merge storeC7 "Metformin" "drug" "TREATS" "Cancer" "disease"
      0.7 "p2" "curated").2.2 ⟨0.5, ["p1"], "pattern"⟩
    (by with_unfolding_all decide)).1

/- ===================================================================
   Reasoning-graph read-back projection
   (src/backend/report_routes.py, get_reasoning_graph and
   _is_valid_entity).  The cached workflow state enters through its
   simulation result; only the valid_paths field is read.
   =================================================================== -/

lemma toNat_ofNat_lt (n : ℕ) (h : n < 55296) : (Char.ofNat n).toNat = n := by
  simp [Char.ofNat, Nat.isValidChar, h, Char.toNat, Char.ofNatAux]
  rw [UInt32.toNat]
  simp [BitVec.toNat_ofNatLt]

lemma pySpace_asciiLower (c : Char) : pySpace (asciiLower c) = pySpace c := by
  unfold asciiLower
  split
  · rename_i h
    have hv : (Char.ofNat (c.toNat + 32)).toNat = c.toNat + 32 :=
      toNat_ofNat_lt _ (by omega)
    unfold pySpace
    rw [hv]
    rw [decide_eq_decide]
    constructor <;> intro hx <;> omega
  · rfl

lemma map_dropWhile_pySpace (l : List Char) :
    (l.dropWhile pySpace).map asciiLower = (l.map asciiLower).dropWhile pySpace := by
  rw [List.dropWhile_map]
  have hcomp : (pySpace ∘ asciiLower) = pySpace := by
    funext c
    exact pySpace_asciiLower c
  rw [hcomp]

/-- Python lower and strip commute (lower-casing never changes whether a
character is whitespace). -/
lemma pyLower_pyStrip (s : String) : pyLower (pyStrip s) = pyStrip (pyLower s) := by
  show String.mk (pyLowerData (pyStripData s.data)) =
    String.mk (pyStripData (pyLowerData s.data))
  unfold pyLowerData pyStripData
  congr 1
  rw [List.map_reverse, map_dropWhile_pySpace, List.map_reverse,
    map_dropWhile_pySpace]

/-- The endpoint's STOPWORDS set. -/
def STOPWORDS : List String :=
  ["for", "be", "can", "may", "to", "the", "a", "an", "is", "are",
   "in", "on", "of", "with", "by", "and", "or", "as", "it", "this",
   "that", "have", "has", "was", "were", "been", "being", "do", "does",
   "did", "will", "would", "could", "should", "might", "must"]

/-- The endpoint's RELATION_LABELS set. -/
def RELATION_LABELS : List String :=
  ["treats", "inhibits", "activates", "binds", "modulates",
   "upregulates", "downregulates", "phosphorylates", "catalyzes",
   "transports", "regulates", "associates_with", "causes",
   "prevents", "implicated_in", "unknown"]

/-- Python `str.isdigit` (ASCII model): nonempty and all digits. -/
def pyIsDigit (s : String) : Bool :=
  ¬ s.data.isEmpty ∧ s.data.all (fun c => 48 ≤ c.toNat ∧ c.toNat ≤ 57)

/-- Model of `_is_valid_entity`. -/
def isValidEntity (name : String) : Bool :=
  if name = "" ∨ (pyStrip name).length < 2 then false
  else
    let name_lower := pyStrip (pyLower name)
    if STOPWORDS.contains name_lower then false
    else if RELATION_LABELS.contains name_lower then false
    else if pyIsDigit name_lower then false
    else true

/-- Model of `_normalize_id`. -/
def normalizeId (name : String) : String :=
  ⟨(pyStripData (pyLowerData name.data)).map
    (fun c => if c = ' ' ∨ c = '-' then '_' else c)⟩

/-- Model of the endpoint's `_infer_entity_type` heuristic. -/
def inferEntityType (name : String) (is_source : Bool) (edge_relation : String) :
    String :=
  let nl := pyLower name
  if ["cancer", "disease", "syndrome", "disorder", "carcinoma", "tumor",
      "diabetes"].any (fun kw => pyContains nl kw) then "disease"
  else if ["pathway", "signaling", "cascade", "metabolism"].any
      (fun kw => pyContains nl kw) then "pathway"
  else if ["receptor", "kinase", "enzyme", "protein", "gene", "ampk", "mtor",
      "egfr", "p53", "akt"].any (fun kw => pyContains nl kw) then "target"
  else if (["in", "ol", "ib", "ab", "ide", "ine", "one", "ate"].any
        (fun suf => suf.data.isSuffixOf nl.data)) ∧ is_source = true ∧
      ["treats", "inhibits", "activates", "binds"].contains
        (pyLower edge_relation) then "drug"
  else if is_source then "drug" else "target"

/-- A node of the read-back graph projection. -/
structure GraphNode where
  id : String
  label : String
  node_type : String
deriving DecidableEq, Repr

/-- An edge of the read-back graph projection. -/
structure GraphEdge where
  source : String
  target : String
  relation : String
  confidence : ℚ
  pmid : Option String
deriving DecidableEq, Repr

/-- The accumulating state of the endpoint's build loop: nodes in
dict-insertion order, edges, the edge dedup key set, max confidence. -/
structure ReasonGraphAcc where
  nodes : List GraphNode
  edges : List GraphEdge
  edge_keys : List (String × String × String × String)
  max_conf : ℚ
deriving DecidableEq, Repr

/-- The endpoint's "add node if its id is unseen" block (the
`if src_id not in nodes_by_id` dict insertion). -/
def addProjNode (nodes : List GraphNode) (nid label ntype : String) :
    List GraphNode :=
  if nodes.any (fun n => n.id == nid) then nodes else nodes ++ [⟨nid, label, ntype⟩]

/-- One iteration of the endpoint's per-edge loop. -/
def projEdgeStep (acc : ReasonGraphAcc) (edge : BiologicalEdge) : ReasonGraphAcc :=
  let source_name := edge.source_entity
  let target_name := edge.target_entity
  if isValidEntity source_name && isValidEntity target_name then
    let relation := edge.relation.value
    let confidence := edge.confidence
    let pmid := edge.pmid_support.head?
    let src_id := normalizeId source_name
    let tgt_id := normalizeId target_name
    let nodes1 := addProjNode acc.nodes src_id (pyStrip source_name)
      (inferEntityType source_name true relation)
    let nodes2 := addProjNode nodes1 tgt_id (pyStrip target_name)
      (inferEntityType target_name false relation)
    let ekey := (src_id, tgt_id, pyUpper relation, pmid.getD "")
    if acc.edge_keys.contains ekey then
      { acc with nodes := nodes2, max_conf := max acc.max_conf confidence }
    else
      { nodes := nodes2
        edges := acc.edges ++ [⟨src_id, tgt_id, pyUpper relation, confidence, pmid⟩]
        edge_keys := acc.edge_keys ++ [ekey]
        max_conf := max acc.max_conf confidence }
  else acc

/-- Model of the graph-building section of `get_reasoning_graph`: fold
over the accepted paths' edges only. -/
def buildReasoningGraph (valid_paths : List (List BiologicalEdge)) : ReasonGraphAcc :=
  valid_paths.foldl (fun acc path => path.foldl projEdgeStep acc) ⟨[], [], [], 0⟩

/-- The final hard-assertion condition of the endpoint: some node label
lower-cases to a stopword or a relation word (the HTTP 500 branch). -/
def nodeLabelBad (label : String) : Bool :=
  STOPWORDS.contains (pyLower label) || RELATION_LABELS.contains (pyLower label)

/-- The endpoint raises 500 iff some emitted node fails the final check. -/
def finalValidationFails (nodes : List GraphNode) : Bool :=
  nodes.any (fun n => nodeLabelBad n.label)

lemma addProjNode_mem (nodes : List GraphNode) (nid label ntype : String)
    (n : GraphNode) (h : n ∈ addProjNode nodes nid label ntype) :
    n ∈ nodes ∨ n = ⟨nid, label, ntype⟩ := by
  unfold addProjNode at h
  split at h
  · exact Or.inl h
  · rcases List.mem_append.mp h with h' | h'
    · exact Or.inl h'
    · simp at h'
      exact Or.inr h'

lemma projEdgeStep_nodes (acc : ReasonGraphAcc) (e : BiologicalEdge) :
    ∀ n ∈ (projEdgeStep acc e).nodes, n ∈ acc.nodes ∨
      (isValidEntity e.source_entity = true ∧ n.label = pyStrip e.source_entity) ∨
      (isValidEntity e.target_entity = true ∧ n.label = pyStrip e.target_entity) := by
  intro n hn
  unfold projEdgeStep at hn
  by_cases hval : (isValidEntity e.source_entity && isValidEntity e.target_entity) = true
  · rw [if_pos hval] at hn
    rw [Bool.and_eq_true] at hval
    dsimp only at hn
    have hn2 : n ∈ addProjNode
        (addProjNode acc.nodes (normalizeId e.source_entity)
          (pyStrip e.source_entity)
          (inferEntityType e.source_entity true e.relation.value))
        (normalizeId e.target_entity) (pyStrip e.target_entity)
        (inferEntityType e.target_entity false e.relation.value) := by
      split at hn
      · exact hn
      · exact hn
    rcases addProjNode_mem _ _ _ _ _ hn2 with h | h
    · rcases addProjNode_mem _ _ _ _ _ h with h' | h'
      · exact Or.inl h'
      · subst h'
        exact Or.inr (Or.inl ⟨hval.1, rfl⟩)
    · subst h
      exact Or.inr (Or.inr ⟨hval.2, rfl⟩)
  · rw [if_neg hval] at hn
    exact Or.inl hn

lemma foldl_projEdgeStep_nodes (edges : List BiologicalEdge) :
    ∀ (acc : ReasonGraphAcc), ∀ n ∈ (edges.foldl projEdgeStep acc).nodes,
      n ∈ acc.nodes ∨ ∃ e ∈ edges,
        (isValidEntity e.source_entity = true ∧ n.label = pyStrip e.source_entity) ∨
        (isValidEntity e.target_entity = true ∧ n.label = pyStrip e.target_entity) := by
  induction edges with
  | nil => intro acc n hn; exact Or.inl hn
  | cons e rest ih =>
    intro acc n hn
    rcases ih (projEdgeStep acc e) n hn with h | ⟨e', he', hlab⟩
    · rcases projEdgeStep_nodes acc e n h with h' | h'
      · exact Or.inl h'
      · exact Or.inr ⟨e, by simp, h'⟩
    · exact Or.inr ⟨e', by simp [he'], hlab⟩

/-- A valid entity name's stripped form never lower-cases to a stopword
or a relation word. -/
lemma validEntity_label_ok (name : String) (h : isValidEntity name = true) :
    nodeLabelBad (pyStrip name) = false := by
  unfold isValidEntity at h
  split at h
  · exact absurd h (by simp)
  · dsimp only at h
    split at h
    · exact absurd h (by simp)
    · split at h
      · exact absurd h (by simp)
      · rename_i hstop hrel
        unfold nodeLabelBad
        rw [pyLower_pyStrip]
        rw [Bool.or_eq_false_iff]
        exact ⟨Bool.eq_false_iff.mpr hstop, Bool.eq_false_iff.mpr hrel⟩

/-- C8: for every cached workflow state, every node of the read-back
graph projection carries a label that is the stripped source_entity or
target_entity of an edge of an accepted PathwayPath, no node label is a
stopword or a relation word, and consequently the endpoint's final
hard-assertion failure branch (the HTTP 500 "Validation failed" raise)
is unreachable. -/
theorem graph_projection_pure (sim : SimulationResult) :
    (∀ n ∈ (buildReasoningGraph (sim.valid_paths.map (fun p => p.edges))).nodes,
      ∃ p ∈ sim.valid_paths, ∃ e ∈ p.edges,
        n.label = pyStrip e.source_entity ∨ n.label = pyStrip e.target_entity) ∧
    finalValidationFails
      (buildReasoningGraph (sim.valid_paths.map (fun p => p.edges))).nodes = false := by
  have hflat : buildReasoningGraph (sim.valid_paths.map (fun p => p.edges)) =
      ((sim.valid_paths.map (fun p => p.edges)).flatten).foldl projEdgeStep
        ⟨[], [], [], 0⟩ := by
    unfold buildReasoningGraph
    rw [List.foldl_flatten]
  have hnode : ∀ n ∈ (buildReasoningGraph
      (sim.valid_paths.map (fun p => p.edges))).nodes,
      ∃ e ∈ (sim.valid_paths.map (fun p => p.edges)).flatten,
        (isValidEntity e.source_entity = true ∧ n.label = pyStrip e.source_entity) ∨
        (isValidEntity e.target_entity = true ∧ n.label = pyStrip e.target_entity) := by
    intro n hn
    rw [hflat] at hn
    rcases foldl_projEdgeStep_nodes _ _ n hn with h | h
    · exact absurd h (by simp)
    · exact h
  constructor
  · intro n hn
    rcases hnode n hn with ⟨e, he, hlab⟩
    rcases List.mem_flatten.mp he with ⟨edges, hedges, hein⟩
    rcases List.mem_map.mp hedges with ⟨p, hp, hpe⟩
    refine ⟨p, hp, e, by rw [hpe]; exact hein, ?_⟩
    rcases hlab with ⟨-, hl⟩ | ⟨-, hl⟩
    · exact Or.inl hl
    · exact Or.inr hl
  · unfold finalValidationFails
    rw [List.any_eq_false]
    intro n hn
    rcases hnode n hn with ⟨e, -, hlab⟩
    rcases hlab with ⟨hv, hl⟩ | ⟨hv, hl⟩ <;>
    · rw [hl]
      simp [validEntity_label_ok _ hv]
